import Mathlib

/-!
# Verification of the sqliteinit migration library

A shallow embedding of the `sqliteinit` Go package: migration-script
discovery (`listMigrationFiles`), the migration engine (`migrate`,
`applyMigration`, `applySchemaInit`, `fetchSchemaVersion`,
`fetchAppliedMigrations`), and the lifecycle surface (`Open`/`openMemory`,
`Create`, `Delete`, `Status`).

Modelling conventions:
* Go strings are Lean `String`s; byte-wise string comparison is modelled by
  the codepoint order on `List Char` (UTF-8 byte order coincides with
  codepoint order).
* The SQL engine is an external collaborator: execution of a user
  migration script's SQL is an explicit parameter
  `exec : String → σ → Except String σ` acting on an abstract user-table
  state `σ`.  The infrastructure tables (`config`, `schema_migrations`)
  are modelled structurally, as created by the package-owned `schema.sql`.
* The filesystem seen by `fs.FS` is a list of directory entries with
  contents; the OS filesystem seen by `Create`/`Delete`/`Status` is a list
  of paths tagged file-or-directory.
* Logging, contexts and timeouts are not modelled (no claim concerns them).
-/

deriving instance DecidableEq for Except

namespace Sqliteinit

/-! ## Byte-wise string comparison (Go `<` on strings)

Go compares strings byte-wise; on UTF-8 data byte order coincides with
codepoint order, so the comparison is modelled on `List Char`. -/

/-- Strict byte-wise comparison, `s < t` on Go strings. -/
def charsLt : List Char → List Char → Bool
  | [], [] => false
  | [], _ :: _ => true
  | _ :: _, [] => false
  | a :: as, b :: bs => if a < b then true else if b < a then false else charsLt as bs

/-- `s ≤ t` on Go strings (`!(t < s)`). -/
def charsLe (a b : List Char) : Bool :=
  !(charsLt b a)

/-! ## Decimal parsing (strconv.Atoi as used by the package) -/

/-- Value of a most-significant-first decimal digit list,
`digitsVal ['4','2'] = 42`.  This is the value `strconv.Atoi` computes on a
digit string (overflow is not modelled; 14-digit ids fit in `int64`). -/
def digitsVal : List Char → Nat
  | [] => 0
  | c :: t => (c.toNat - 48) * 10 ^ t.length + digitsVal t

/-- All characters are ASCII decimal digits (`\d` in the Go regexp). -/
def allDigits (cs : List Char) : Bool := cs.all (·.isDigit)

/-- `strconv.Atoi`: optional sign followed by at least one digit.
Overflow is not modelled (the package parses 14-digit ids and
`schema.version` values it wrote itself). -/
def atoi (s : String) : Option Int :=
  match s.toList with
  | [] => none
  | '+' :: rest =>
    if rest ≠ [] ∧ allDigits rest then some (digitsVal rest) else none
  | '-' :: rest =>
    if rest ≠ [] ∧ allDigits rest then some (-(digitsVal rest : Int)) else none
  | cs =>
    if allDigits cs then some (digitsVal cs) else none

/-! ## Script discovery (doc.go `listMigrationFiles`) -/

/-- `migrationScript` (doc.go lines 129-133). -/
structure migrationScript where
  ID : Nat
  Comment : String
  Path : String
deriving DecidableEq, Repr

/-- A directory entry of the migrations `fs.FS`, with its contents. -/
structure fileEntry where
  name : String
  isDir : Bool
  content : String
deriving DecidableEq, Repr

/-- Anchored match of `reMigrationFile = ^(\d{14})_(.+)\.sql$` (doc.go
line 136) followed by `strconv.Atoi` on the first group.  A name matches
iff it has ≥ 20 characters, the first 14 are digits, character 14 is `_`,
it ends in `.sql`, and the (nonempty, greedy) middle segment contains no
newline (`.` does not match newline in Go regexips; `$` anchors at end of
text).  Group 1 parses to `ID`, group 2 is `Comment`. -/
def parseMigrationName (name : String) : Option migrationScript :=
  let cs := name.toList
  let n := cs.length
  if 20 ≤ n ∧ allDigits (cs.take 14) = true ∧ cs[14]? = some '_' ∧
      cs.drop (n - 4) = ['.', 's', 'q', 'l'] ∧
      (∀ c ∈ (cs.drop 15).take (n - 19), c ≠ '\n') then
    some ⟨digitsVal (cs.take 14), ((cs.drop 15).take (n - 19)).asString, name⟩
  else
    none

/-- The duplicate-migration-ID error of `listMigrationFiles` (doc.go
line 320): carries the id and both conflicting filenames.  (The Atoi
branch of the source cannot fail: group 1 is always 14 digits.) -/
inductive discoveryError where
  | duplicateID (id : Nat) (existing conflicting : String)
deriving DecidableEq, Repr

/-- Lookup in the `seenIDs` map (doc.go line 299). -/
def lookupSeen (seen : List (Nat × String)) (id : Nat) : Option String :=
  match seen with
  | [] => none
  | (i, n) :: rest => if i = id then some n else lookupSeen rest id

/-- The collection loop of `listMigrationFiles` (doc.go lines 301-329):
skip directories, skip non-matching names, fail on a duplicate id naming
the previously seen filename and the current one, otherwise accumulate. -/
def collectScripts : List fileEntry → List (Nat × String) →
    List migrationScript → Except discoveryError (List migrationScript)
  | [], _, acc => .ok acc
  | e :: rest, seen, acc =>
    if e.isDir then collectScripts rest seen acc
    else
      match parseMigrationName e.name with
      | none => collectScripts rest seen acc
      | some s =>
        match lookupSeen seen s.ID with
        | some existing => .error (.duplicateID s.ID existing e.name)
        | none => collectScripts rest ((s.ID, e.name) :: seen) (acc ++ [s])

/-- `listMigrationFiles` (doc.go lines 292-337): collect matching entries,
then sort by `Path` (`sort.Slice` with `Path <`; modelled by insertion
sort on `Path ≤`, which agrees with any correct sort — paths of collected
scripts are distinct because their ids are). -/
def listMigrationFiles (fsys : List fileEntry) :
    Except discoveryError (List migrationScript) :=
  match collectScripts fsys [] [] with
  | .error e => .error e
  | .ok scripts =>
    .ok (scripts.insertionSort fun a b => charsLe a.Path.toList b.Path.toList = true)

/-- The entries of a file collection that match the migration-name pattern,
in directory order: directories and non-matching names are skipped. -/
def matchedScripts (fsys : List fileEntry) : List migrationScript :=
  fsys.filterMap fun e => if e.isDir then none else parseMigrationName e.name

/-- `fs.ReadFile` on the migrations collection (reading a directory or a
missing name fails). -/
def readMigrationFile (fsys : List fileEntry) (path : String) : Option String :=
  match fsys.find? fun e => e.name == path with
  | some e => if e.isDir then none else some e.content
  | none => none

/-! ## Database state (the tables owned by schema.sql) -/

/-- A row of the `config` table (schema.sql): key/value plus audit
timestamps, all times Unix seconds UTC. -/
structure configRow where
  key : String
  value : String
  createdAt : Int
  updatedAt : Int
deriving DecidableEq, Repr

/-- A row of the `schema_migrations` table (schema.sql): integer-id primary
key, unique path. -/
structure schemaMigrationRow where
  id : Int
  comment : String
  path : String
  appliedAt : Int
  createdAt : Int
  updatedAt : Int
deriving DecidableEq, Repr

/-- The database state.  `hasTables` records whether the two
infrastructure tables exist (they are created together by `schema.sql`);
`user` is the abstract state of all user tables, acted on by the external
SQL engine. -/
structure DBState (σ : Type) where
  hasTables : Bool
  config : List configRow
  schemaMigrations : List schemaMigrationRow
  user : σ
deriving DecidableEq, Repr

/-- A fresh database (what `sql.Open`+ping yields on `:memory:` or on a
newly created file): no tables at all. -/
def emptyDB (u : σ) : DBState σ :=
  ⟨false, [], [], u⟩

/-- `AppliedMigration` (part_001 lines 97-102); `AppliedAt` is the Unix
second (the `time.Time` is `time.Unix(appliedAt, 0).UTC()`). -/
structure AppliedMigration where
  ID : Int
  Comment : String
  Path : String
  AppliedAt : Int
deriving DecidableEq, Repr

/-- Errors of a single migration transaction (`applyMigration` /
`applySchemaInit`). -/
inductive applyError where
  | readFailed (path : String)
  | execFailed (msg : String)
  | insertFailed
  | versionRowCount (rows : Nat)
deriving DecidableEq, Repr

/-- Errors surfaced by `migrate` and `fetchSchemaVersion`. -/
inductive migrateError where
  | missingVersionRow
  | invalidVersion (value : String)
  | initFailed (e : applyError)
  | listFailed (e : discoveryError)
  | applyFailed (path : String) (e : applyError)
deriving DecidableEq, Repr

/-- `fetchSchemaVersion` (part_001 lines 384-398).  A query against a
database without the `config` table fails with "no such table", which
`isNoSuchTable` turns into `(nil, nil)` — uninitialized.  If the table
exists but the `schema.version` row is absent, `Scan` returns
`sql.ErrNoRows`, which is not a no-such-table error: hard error. -/
def fetchSchemaVersion (st : DBState σ) : Except migrateError (Option Int) :=
  if st.hasTables = false then .ok none
  else
    match st.config.find? fun r => r.key == "schema.version" with
    | none => .error .missingVersionRow
    | some r =>
      match atoi r.value with
      | none => .error (.invalidVersion r.value)
      | some v => .ok (some v)

/-- Convert a stored row to the exported record (drops the audit
columns). -/
def toApplied (r : schemaMigrationRow) : AppliedMigration :=
  ⟨r.id, r.comment, r.path, r.appliedAt⟩

/-- `fetchAppliedMigrations` (part_001 lines 401-422): all rows of
`schema_migrations` in `ORDER BY path`; a missing table yields the empty
list (`isNoSuchTable`).  Row-scan failures cannot occur in the model. -/
def fetchAppliedMigrations (st : DBState σ) : List AppliedMigration :=
  if st.hasTables then
    ((st.schemaMigrations.insertionSort
      fun a b => charsLe a.path.toList b.path.toList = true).map toApplied)
  else []

/-- `UPDATE config SET value = ?, updated_at = ? WHERE key = ?`; returns
the updated state together with the number of rows affected. -/
def updateConfig (st : DBState σ) (key value : String) (ts : Int) :
    DBState σ × Nat :=
  ({ st with
      config := st.config.map fun r =>
        if r.key == key then { r with value := value, updatedAt := ts } else r },
    st.config.countP fun r => r.key == key)

/-- `INSERT INTO schema_migrations ...`: fails if the table is missing or
the integer-id primary key / unique path constraint is violated. -/
def insertSchemaMigration (st : DBState σ) (row : schemaMigrationRow) :
    Except applyError (DBState σ) :=
  if st.hasTables = false then .error .insertFailed
  else if st.schemaMigrations.any fun r => r.id == row.id || r.path == row.path then
    .error .insertFailed
  else .ok { st with schemaMigrations := st.schemaMigrations ++ [row] }

/-- Executing the package-owned `schema.sql` (part_001 line 19 embeds it):
creates `schema_migrations` and `config` (plain CREATE TABLE, so it fails
if they already exist) and seeds the three config rows with timestamps 0,
`schema.version` = "0". -/
def execSchemaSQL (st : DBState σ) : Except applyError (DBState σ) :=
  if st.hasTables then .error (.execFailed "table already exists")
  else
    .ok { st with
      hasTables := true
      config := [⟨"schema.version", "0", 0, 0⟩, ⟨"app.version", "", 0, 0⟩,
        ⟨"db.created_at", "", 0, 0⟩]
      schemaMigrations := [] }

/-! ## Configuration (part_001 lines 22-86) -/

/-- `Config` (part_001 lines 23-62).  `Logger` and `MigrationTimeout` are
not modelled (no claim concerns logging or deadlines); `Migrations` is the
entry list of the supplied `fs.FS` (`none` = nil). -/
structure Config where
  Path : String
  Migrations : Option (List fileEntry)
  ProductionEnvVar : String
  AllowMemoryInProduction : Bool
  SkipMigrations : Bool
  AppVersion : String
  RequiredSchemaVersion : Int
deriving DecidableEq, Repr

/-- `Config.defaults` (part_001 lines 65-76) restricted to the modelled
fields: an empty `ProductionEnvVar` becomes "ENV". -/
def Config.defaults (cfg : Config) : Config :=
  { cfg with
    ProductionEnvVar :=
      if cfg.ProductionEnvVar = "" then "ENV" else cfg.ProductionEnvVar }

/-- `Config.isMemory` (part_001 lines 84-86); `strings.HasPrefix` is
prefix-of on the character lists. -/
def Config.isMemory (cfg : Config) : Bool :=
  cfg.Path == ":memory:" || "file::memory:".toList.isPrefixOf cfg.Path.toList

/-- The process environment: `os.Getenv` returns "" for unset names. -/
def getenv (env : List (String × String)) (name : String) : String :=
  match env.find? fun p => p.1 == name with
  | some p => p.2
  | none => ""

/-- `strings.EqualFold`, restricted to ASCII simple folding — exact for
the comparisons the package makes (the target `"production"` contains no
character with a non-ASCII fold orbit). -/
def eqFold (s t : String) : Bool :=
  s.toList.map Char.toLower == t.toList.map Char.toLower

/-- `Config.isProduction` (part_001 lines 79-81), with the environment
passed explicitly. -/
def Config.isProduction (cfg : Config) (env : List (String × String)) : Bool :=
  eqFold (getenv env cfg.ProductionEnvVar) "production"

/-! ## The migration engine (doc.go lines 139-288) -/

/-- `applySchemaInit` (doc.go lines 202-243): one transaction executing
`schema.sql`, recording the reserved id-0 `init` row, and — when
`AppVersion` is set — updating `app.version` and `db.created_at`
(`strconv.FormatInt ts 10` is decimal `toString`).  Any failure rolls the
transaction back (the returned `Except.error` carries no state). -/
def applySchemaInit (cfg : Config) (st : DBState σ) (ts : Int) :
    Except applyError (DBState σ) :=
  match execSchemaSQL st with
  | .error e => .error e
  | .ok st1 =>
    match insertSchemaMigration st1 ⟨0, "init", "schema.sql", ts, ts, ts⟩ with
    | .error e => .error e
    | .ok st2 =>
      if cfg.AppVersion ≠ "" then
        let st3 := (updateConfig st2 "app.version" cfg.AppVersion ts).1
        let st4 := (updateConfig st3 "db.created_at" (toString ts) ts).1
        .ok st4
      else .ok st2

/-- `applyMigration` (doc.go lines 246-288): one transaction reading the
script, executing its SQL through the external engine, inserting its
`schema_migrations` row, and updating `config.schema.version` to
`strconv.Itoa s.ID`, checking that exactly one row was affected.  Failure
at any point rolls the whole transaction back: the `Except.error` result
carries no state, so the caller's database state is untouched. -/
def applyMigration (exec : String → σ → Except String σ)
    (fsys : List fileEntry) (st : DBState σ) (s : migrationScript) (ts : Int) :
    Except applyError (DBState σ) :=
  match readMigrationFile fsys s.Path with
  | none => .error (.readFailed s.Path)
  | some sqlText =>
    match exec sqlText st.user with
    | .error msg => .error (.execFailed msg)
    | .ok u =>
      match insertSchemaMigration { st with user := u }
          ⟨(s.ID : Int), s.Comment, s.Path, ts, ts, ts⟩ with
      | .error e => .error e
      | .ok st2 =>
        let upd := updateConfig st2 "schema.version" (toString s.ID) ts
        if upd.2 ≠ 1 then .error (.versionRowCount upd.2)
        else .ok upd.1

/-- The pending-script loop of `migrate` (doc.go lines 186-196):
`appliedPaths` is the set computed once before the loop; scripts whose
path is in it are skipped; the first failing application aborts the run,
returning the database state as of just before that script. -/
def applyPending (exec : String → σ → Except String σ) (fsys : List fileEntry)
    (appliedPaths : List String) (ts : Int) :
    List migrationScript → DBState σ → DBState σ × Option migrateError
  | [], st => (st, none)
  | s :: rest, st =>
    if s.Path ∈ appliedPaths then applyPending exec fsys appliedPaths ts rest st
    else
      match applyMigration exec fsys st s ts with
      | .ok st1 => applyPending exec fsys appliedPaths ts rest st1
      | .error e => (st, some (.applyFailed s.Path e))

/-- `migrate` (doc.go lines 139-199).  Returns the final database state
(the committed work stays committed even when an error is returned —
matching the mutable `*sql.DB` of the source) together with the error, if
any.  `ts` is the Unix second used for all timestamps of the run. -/
def migrate (exec : String → σ → Except String σ) (cfg : Config)
    (st : DBState σ) (ts : Int) : DBState σ × Option migrateError :=
  match fetchSchemaVersion st with
  | .error e => (st, some e)
  | .ok version =>
    match (if version.isNone then applySchemaInit cfg st ts else .ok st :
        Except applyError (DBState σ)) with
    | .error e => (st, some (.initFailed e))
    | .ok st1 =>
      match cfg.Migrations with
      | none => (st1, none)
      | some fsys =>
        match listMigrationFiles fsys with
        | .error e => (st1, some (.listFailed e))
        | .ok scripts =>
          if scripts.isEmpty then (st1, none)
          else
            let appliedPaths := (fetchAppliedMigrations st1).map (·.Path)
            applyPending exec fsys appliedPaths ts scripts st1

/-! ## Lifecycle (part_001 lines 104-334) -/

/-- Errors of `validatePersistentPath`, one per violated rule. -/
inductive pathError where
  | notAbsolute
  | wrongExtension
  | isDirectory
  | parentMissing
deriving DecidableEq, Repr

/-- Errors of `openAndMigrate`, `openMemory` and `openPersistent`. -/
inductive openError where
  | memoryInProduction (envVar : String)
  | migrateFailed (e : migrateError)
  | versionFetchFailed (e : migrateError)
  | notInitialized
  | versionMismatch (required found : Int)
deriving DecidableEq, Repr

/-- Errors of the public lifecycle operations. -/
inductive lifecycleError where
  | memoryNotAllowed
  | invalidPath (path : String) (e : pathError)
  | alreadyExists (path : String)
  | notFound (path : String)
  | openFailed (e : openError)
  | statusFailed (e : migrateError)
  | notRegular (path : String)
  | stillExists (path : String)
deriving DecidableEq, Repr

/-- An entry of the OS filesystem: a path that is a regular file or a
directory. -/
structure fsEntry where
  path : String
  isDir : Bool
deriving DecidableEq, Repr

/-- `os.Stat`. -/
def stat (fs : List fsEntry) (p : String) : Option fsEntry :=
  fs.find? fun e => e.path == p

/-- `fileExists` (part_001 lines 312-318): regular file or directory. -/
def fileExists (fs : List fsEntry) (p : String) : Bool :=
  (stat fs p).isSome

/-- `isDirectory` (part_001 lines 320-326). -/
def isDirectory (fs : List fsEntry) (p : String) : Bool :=
  match stat fs p with
  | some e => e.isDir
  | none => false

/-- `isRegularFile` (part_001 lines 328-334). -/
def isRegularFile (fs : List fsEntry) (p : String) : Bool :=
  match stat fs p with
  | some e => !e.isDir
  | none => false

/-- Walk a path backwards (reversed character list) looking for the final
dot of the final element, as `filepath.Ext` does. -/
def extGo : List Char → List Char → String
  | [], _ => ""
  | c :: rest, acc =>
    if c = '/' then ""
    else if c = '.' then ('.' :: acc).asString
    else extGo rest (c :: acc)

/-- `filepath.Ext`: the suffix beginning at the final dot in the final
path element; empty if there is none. -/
def extOf (p : String) : String :=
  extGo p.toList.reverse []

/-- `filepath.IsAbs` on Unix: begins with a slash. -/
def isAbs (p : String) : Bool :=
  match p.toList with
  | '/' :: _ => true
  | _ => false

/-- `filepath.Dir` restricted to slash-normalized paths: everything
before the final slash (the root stays `/`, a slashless path gives `.`).
The dot-segment cleaning of the real `filepath.Dir` is not modelled — the
claims only involve already-clean paths. -/
def dirOf (p : String) : String :=
  match p.toList.reverse.dropWhile (· ≠ '/') with
  | [] => "."
  | ['/'] => "/"
  | '/' :: rest => rest.reverse.asString
  | r => r.reverse.asString

/-- `validatePersistentPath` (part_001 lines 293-308): absolute, `.db`
extension, not a directory, existing parent directory.  `none` = valid. -/
def validatePersistentPath (fs : List fsEntry) (path : String) :
    Option pathError :=
  if !isAbs path then some .notAbsolute
  else if extOf path ≠ ".db" then some .wrongExtension
  else if isDirectory fs path then some .isDirectory
  else if !isDirectory fs (dirOf path) then some .parentMissing
  else none

/-- The required-schema-version verification of `openAndMigrate`
(part_001 lines 275-286): runs only when `RequiredSchemaVersion ≠ 0`. -/
def checkRequiredVersion (cfg : Config) (st : DBState σ) : Option openError :=
  if cfg.RequiredSchemaVersion ≠ 0 then
    match fetchSchemaVersion st with
    | .error e => some (.versionFetchFailed e)
    | .ok none => some .notInitialized
    | .ok (some v) =>
      if v ≠ cfg.RequiredSchemaVersion then
        some (.versionMismatch cfg.RequiredSchemaVersion v)
      else none
  else none

/-- The migration step of `openAndMigrate` (part_001 lines 265-272): a
no-op when `SkipMigrations` is set; a migration failure closes the handle
and surfaces the error. -/
def migrateOrSkip (exec : String → σ → Except String σ) (cfg : Config)
    (st : DBState σ) (ts : Int) : Except openError (DBState σ) :=
  if cfg.SkipMigrations then .ok st
  else
    match migrate exec cfg st ts with
    | (_, some e) => .error (.migrateFailed e)
    | (st1, none) => .ok st1

/-- `openAndMigrate` (part_001 lines 240-290) on an already-established
connection whose database content is `st` (DSN building, pragmas and ping
are driver-level and not modelled): migrate unless skipped, then verify
the required schema version. -/
def openAndMigrate (exec : String → σ → Except String σ) (cfg : Config)
    (st : DBState σ) (ts : Int) : Except openError (DBState σ) :=
  match migrateOrSkip exec cfg st ts with
  | .error e => .error e
  | .ok st1 =>
    match checkRequiredVersion cfg st1 with
    | some e => .error e
    | none => .ok st1

/-- `openMemory` (part_001 lines 216-223): the production-safety check
runs before any storage is touched; an in-memory database starts empty. -/
def openMemory (exec : String → σ → Except String σ) (u : σ) (cfg : Config)
    (env : List (String × String)) (ts : Int) : Except openError (DBState σ) :=
  if cfg.isProduction env && !cfg.AllowMemoryInProduction then
    .error (.memoryInProduction cfg.ProductionEnvVar)
  else openAndMigrate exec cfg (emptyDB u) ts

/-- `openPersistent` (part_001 lines 226-237): validate the path, require
the file to exist, then open-and-migrate the stored content `db`. -/
def openPersistent (exec : String → σ → Except String σ) (cfg : Config)
    (fs : List fsEntry) (db : DBState σ) (ts : Int) :
    Except lifecycleError (DBState σ) :=
  match validatePersistentPath fs cfg.Path with
  | some e => .error (.invalidPath cfg.Path e)
  | none =>
    if !fileExists fs cfg.Path then .error (.notFound cfg.Path)
    else
      match openAndMigrate exec cfg db ts with
      | .error e => .error (.openFailed e)
      | .ok st => .ok st

/-- `Open` (part_001 lines 107-114): apply defaults, then branch on the
location class.  For a memory target `u` seeds the fresh user state; for
a persistent target `db` is the stored content of the file. -/
def Open (exec : String → σ → Except String σ) (u : σ) (cfg₀ : Config)
    (env : List (String × String)) (fs : List fsEntry) (db : DBState σ)
    (ts : Int) : Except lifecycleError (DBState σ) :=
  let cfg := cfg₀.defaults
  if cfg.isMemory then
    match openMemory exec u cfg env ts with
    | .error e => .error (.openFailed e)
    | .ok st => .ok st
  else openPersistent exec cfg fs db ts

/-- `Create` (part_001 lines 118-140): reject memory targets, validate,
fail if the file exists; otherwise the open (ping) creates the file, the
connect+migrate sequence runs, and the handle is closed.  The created
file remains on disk even when migration fails (the source only closes
the handle).  Returns the new filesystem and the error, if any. -/
def Create (exec : String → σ → Except String σ) (u : σ) (cfg₀ : Config)
    (fs : List fsEntry) (ts : Int) :
    List fsEntry × Option lifecycleError :=
  let cfg := cfg₀.defaults
  if cfg.isMemory then (fs, some .memoryNotAllowed)
  else
    match validatePersistentPath fs cfg.Path with
    | some e => (fs, some (.invalidPath cfg.Path e))
    | none =>
      if fileExists fs cfg.Path then (fs, some (.alreadyExists cfg.Path))
      else
        let fs1 := fs ++ [⟨cfg.Path, false⟩]
        match openAndMigrate exec cfg (emptyDB u) ts with
        | .error e => (fs1, some (.openFailed e))
        | .ok _ => (fs1, none)

/-- `os.Remove` on a regular file. -/
def removeFile (fs : List fsEntry) (p : String) : List fsEntry :=
  fs.filter fun e => e.path ≠ p

/-- Keep the first error (`if firstErr == nil { firstErr = err }`). -/
def keepFirst (a b : Option lifecycleError) : Option lifecycleError :=
  match a with
  | some e => some e
  | none => b

/-- One iteration of Delete's sidecar loop (part_001 lines 159-176) for
`path ++ suffix`: skip absent names; record (but do not stop on) a
non-regular entry; remove regular files.  `os.Remove` on a regular file
succeeds in the model, so removal failures arise only from non-regular
entries — the best-effort continue-on-error structure is unchanged. -/
def deleteStep (path : String) (st : List fsEntry × Option lifecycleError)
    (suffix : String) : List fsEntry × Option lifecycleError :=
  let name := path ++ suffix
  if !fileExists st.1 name then st
  else if !isRegularFile st.1 name then
    (st.1, keepFirst st.2 (some (.notRegular name)))
  else (removeFile st.1 name, st.2)

/-- `Delete` (part_001 lines 144-187): reject memory targets, validate,
no-op success if the primary file is absent; otherwise best-effort
removal of the primary file and the `-shm` and `-wal` sidecars, returning
the first error, and finally verify the primary file is gone. -/
def Delete (fs : List fsEntry) (path : String) :
    List fsEntry × Option lifecycleError :=
  if path == ":memory:" || "file::memory:".toList.isPrefixOf path.toList then
    (fs, some .memoryNotAllowed)
  else
    match validatePersistentPath fs path with
    | some e => (fs, some (.invalidPath path e))
    | none =>
      if !fileExists fs path then (fs, none)
      else
        let r := ["", "-shm", "-wal"].foldl (deleteStep path) (fs, none)
        match r.2 with
        | some e => (r.1, some e)
        | none =>
          if fileExists r.1 path then (r.1, some (.stillExists path))
          else (r.1, none)

/-- `MigrationStatus` (part_001 lines 89-94); the Go zero value has
`SchemaVersion` 0 and nil lists. -/
structure MigrationStatus where
  SchemaVersion : Int
  Applied : List AppliedMigration
  Pending : List String
  IsInitialized : Bool
deriving DecidableEq, Repr

/-- `getStatus` (part_001 lines 337-380): an uninitialized database gives
the zero status; otherwise the snapshot holds the parsed version, the
applied rows, and the discovered scripts whose path has no applied record
(in discovery order). -/
def getStatus (cfg : Config) (st : DBState σ) :
    Except migrateError MigrationStatus :=
  match fetchSchemaVersion st with
  | .error e => .error e
  | .ok none => .ok ⟨0, [], [], false⟩
  | .ok (some v) =>
    let applied := fetchAppliedMigrations st
    match cfg.Migrations with
    | none => .ok ⟨v, applied, [], true⟩
    | some fsys =>
      match listMigrationFiles fsys with
      | .error e => .error (.listFailed e)
      | .ok scripts =>
        let appliedPaths := applied.map (·.Path)
        .ok ⟨v, applied,
          (scripts.filter fun s => s.Path ∉ appliedPaths).map (·.Path), true⟩

/-- `Status` (part_001 lines 190-213): defaults, force `SkipMigrations`,
reject memory targets, report "not initialized" without error for a
missing file, otherwise open (no migrations run) and snapshot. -/
def Status (exec : String → σ → Except String σ) (cfg₀ : Config)
    (fs : List fsEntry) (db : DBState σ) (ts : Int) :
    Except lifecycleError MigrationStatus :=
  let cfg := { cfg₀.defaults with SkipMigrations := true }
  if cfg.isMemory then .error .memoryNotAllowed
  else if !fileExists fs cfg.Path then .ok ⟨0, [], [], false⟩
  else
    match openPersistent exec cfg fs db ts with
    | .error e => .error e
    | .ok st =>
      match getStatus cfg st with
      | .error e => .error (.statusFailed e)
      | .ok s => .ok s

/-! ## Lemmas about the migration loop -/

/-- If every script's path is in the applied set, the loop is a no-op. -/
theorem applyPending_all_skipped (exec : String → σ → Except String σ)
    (fsys : List fileEntry) (ap : List String) (ts : Int) :
    ∀ (scripts : List migrationScript) (st : DBState σ),
      (∀ s ∈ scripts, s.Path ∈ ap) →
      applyPending exec fsys ap ts scripts st = (st, none) := by
  intro scripts
  induction scripts with
  | nil => intro st _; rfl
  | cons s rest ih =>
    intro st h
    unfold applyPending
    rw [if_pos (h s (List.mem_cons_self s rest))]
    exact ih st fun x hx => h x (List.mem_cons_of_mem s hx)

/-- A prefix of the loop that finishes cleanly composes with the rest. -/
theorem applyPending_append (exec : String → σ → Except String σ)
    (fsys : List fileEntry) (ap : List String) (ts : Int) :
    ∀ (pre : List migrationScript) (st st1 : DBState σ)
      (rest : List migrationScript),
      applyPending exec fsys ap ts pre st = (st1, none) →
      applyPending exec fsys ap ts (pre ++ rest) st =
        applyPending exec fsys ap ts rest st1 := by
  intro pre
  induction pre with
  | nil =>
    intro st st1 rest h
    simp only [applyPending] at h
    cases h
    rfl
  | cons s pre ih =>
    intro st st1 rest h
    simp only [applyPending, List.cons_append] at h ⊢
    by_cases hmem : s.Path ∈ ap
    · rw [if_pos hmem] at h ⊢
      exact ih st st1 rest h
    · rw [if_neg hmem] at h ⊢
      cases happ : applyMigration exec fsys st s ts with
      | ok st2 => rw [happ] at h; exact ih st2 st1 rest h
      | error e => rw [happ] at h; cases h

/-- On an uninitialized database, `applySchemaInit` succeeds: it creates
the tables and records the reserved id-0 `init` row. -/
theorem applySchemaInit_of_uninit (cfg : Config) (st : DBState σ) (ts : Int)
    (h : st.hasTables = false) :
    ∃ st1, applySchemaInit cfg st ts = .ok st1 ∧ st1.hasTables = true ∧
      (⟨0, "init", "schema.sql", ts, ts, ts⟩ : schemaMigrationRow)
        ∈ st1.schemaMigrations := by
  by_cases hA : cfg.AppVersion = ""
  · refine ⟨⟨true,
      [⟨"schema.version", "0", 0, 0⟩, ⟨"app.version", "", 0, 0⟩,
        ⟨"db.created_at", "", 0, 0⟩],
      [⟨0, "init", "schema.sql", ts, ts, ts⟩], st.user⟩, ?_, rfl, by simp⟩
    simp [applySchemaInit, execSchemaSQL, insertSchemaMigration, h, hA]
  · refine ⟨⟨true,
      [⟨"schema.version", "0", 0, 0⟩, ⟨"app.version", cfg.AppVersion, 0, ts⟩,
        ⟨"db.created_at", toString ts, 0, ts⟩],
      [⟨0, "init", "schema.sql", ts, ts, ts⟩], st.user⟩, ?_, rfl, by simp⟩
    simp [applySchemaInit, execSchemaSQL, insertSchemaMigration, updateConfig,
      h, hA]

/-! ## Order theory of byte-wise comparison -/

theorem charsLt_asymm : ∀ a b : List Char,
    charsLt a b = true → charsLt b a = false
  | [], [] => by intro h; cases h
  | [], _ :: _ => fun _ => rfl
  | _ :: _, [] => by intro h; cases h
  | a :: as, b :: bs => by
    intro h
    unfold charsLt at h ⊢
    by_cases hab : a < b
    · rw [if_neg (asymm hab), if_pos hab]
    · rw [if_neg hab] at h
      by_cases hba : b < a
      · rw [if_pos hba] at h; cases h
      · rw [if_neg hba] at h
        rw [if_neg hba, if_neg hab]
        exact charsLt_asymm as bs h

theorem charsLt_connex : ∀ a b : List Char,
    charsLt a b = false → charsLt b a = false → a = b
  | [], [] => fun _ _ => rfl
  | [], _ :: _ => by intro h _; cases h
  | _ :: _, [] => by intro _ h; cases h
  | a :: as, b :: bs => by
    intro h1 h2
    unfold charsLt at h1 h2
    by_cases hab : a < b
    · rw [if_pos hab] at h1; cases h1
    · by_cases hba : b < a
      · rw [if_pos hba] at h2; cases h2
      · rw [if_neg hab, if_neg hba] at h1
        rw [if_neg hba, if_neg hab] at h2
        have hc : a = b := le_antisymm (not_lt.mp hba) (not_lt.mp hab)
        rw [hc, charsLt_connex as bs h1 h2]

theorem charsLt_trans : ∀ a b c : List Char,
    charsLt a b = true → charsLt b c = true → charsLt a c = true
  | [], [], _ => by intro h _; cases h
  | [], _ :: _, [] => by intro _ h; cases h
  | [], _ :: _, _ :: _ => fun _ _ => rfl
  | _ :: _, [], _ => by intro h _; cases h
  | _ :: _, _ :: _, [] => by intro _ h; cases h
  | a :: as, b :: bs, c :: cs => by
    intro h1 h2
    unfold charsLt at h1 h2 ⊢
    by_cases hab : a < b
    · by_cases hbc : b < c
      · rw [if_pos (lt_trans hab hbc)]
      · by_cases hcb : c < b
        · rw [if_neg hbc, if_pos hcb] at h2; cases h2
        · have : b = c := le_antisymm (not_lt.mp hcb) (not_lt.mp hbc)
          rw [if_pos (this ▸ hab)]
    · by_cases hba : b < a
      · rw [if_neg hab, if_pos hba] at h1; cases h1
      · have hc1 : a = b := le_antisymm (not_lt.mp hba) (not_lt.mp hab)
        rw [if_neg hab, if_neg hba] at h1
        by_cases hbc : b < c
        · rw [if_pos (hc1 ▸ hbc)]
        · by_cases hcb : c < b
          · rw [if_neg hbc, if_pos hcb] at h2; cases h2
          · have hc2 : b = c := le_antisymm (not_lt.mp hcb) (not_lt.mp hbc)
            rw [if_neg hbc, if_neg hcb] at h2
            have hac : ¬a < c := by rw [hc1, hc2]; exact lt_irrefl c
            have hca : ¬c < a := by rw [hc1, hc2]; exact lt_irrefl c
            rw [if_neg hac, if_neg hca]
            exact charsLt_trans as bs cs h1 h2

theorem charsLe_total (a b : List Char) :
    charsLe a b = true ∨ charsLe b a = true := by
  unfold charsLe
  cases h : charsLt b a with
  | false => exact Or.inl rfl
  | true => exact Or.inr (by rw [charsLt_asymm b a h]; rfl)

theorem charsLe_trans {a b c : List Char} (h1 : charsLe a b = true)
    (h2 : charsLe b c = true) : charsLe a c = true := by
  unfold charsLe at h1 h2 ⊢
  cases hca : charsLt c a with
  | false => rfl
  | true =>
    exfalso
    cases hab : charsLt a b with
    | true =>
      have := charsLt_trans c a b hca hab
      rw [this] at h2
      cases h2
    | false =>
      have hba : charsLt b a = false := by
        cases hba : charsLt b a with
        | false => rfl
        | true => rw [hba] at h1; cases h1
      have := charsLt_connex a b hab hba
      rw [this] at hca
      rw [hca] at h2
      cases h2

/-! ## Digit strings: lexicographic order is numeric order -/

theorem digit_toNat_bounds {c : Char} (h : c.isDigit = true) :
    48 ≤ c.toNat ∧ c.toNat ≤ 57 := by
  simp [Char.isDigit] at h
  exact ⟨h.1, h.2⟩

theorem digitsVal_lt_pow : ∀ {t : List Char},
    allDigits t = true → digitsVal t < 10 ^ t.length
  | [], _ => by simp [digitsVal]
  | c :: t, h => by
    have hc : c.isDigit = true ∧ allDigits t = true := by
      simpa [allDigits] using h
    have hb := digit_toNat_bounds hc.1
    have ih := digitsVal_lt_pow hc.2
    unfold digitsVal
    have h9 : c.toNat - 48 ≤ 9 := by omega
    calc (c.toNat - 48) * 10 ^ t.length + digitsVal t
        < (c.toNat - 48) * 10 ^ t.length + 10 ^ t.length :=
          Nat.add_lt_add_left ih _
      _ = (c.toNat - 48 + 1) * 10 ^ t.length := by ring
      _ ≤ 10 * 10 ^ t.length := Nat.mul_le_mul_right _ (by omega)
      _ = 10 ^ (c :: t).length := by
          rw [List.length_cons]
          ring

theorem mul_pow_add_lt {a b v1 v2 P : ℕ} (hab : a < b) (hv : v1 < P) :
    a * P + v1 < b * P + v2 :=
  calc a * P + v1 < a * P + P := Nat.add_lt_add_left hv _
    _ = (a + 1) * P := by ring
    _ ≤ b * P := Nat.mul_le_mul_right _ hab
    _ ≤ b * P + v2 := Nat.le_add_right _ _

/-- For equal-length digit strings, strict byte-wise order of any
extensions implies strict numeric order of the digit prefixes (given the
prefixes differ, the comparison is decided inside them). -/
theorem digit_lex_lt : ∀ (d1 d2 r1 r2 : List Char), d1.length = d2.length →
    allDigits d1 = true → allDigits d2 = true →
    charsLt (d1 ++ r1) (d2 ++ r2) = true → d1 ≠ d2 →
    digitsVal d1 < digitsVal d2
  | [], [], _, _, _, _, _, _, hne => absurd rfl hne
  | [], _ :: _, _, _, hlen, _, _, _, _ => by simp at hlen
  | _ :: _, [], _, _, hlen, _, _, _, _ => by simp at hlen
  | c1 :: t1, c2 :: t2, r1, r2, hlen, hd1, hd2, hlt, hne => by
    have hlen' : t1.length = t2.length := by simpa using hlen
    have hc1 : c1.isDigit = true ∧ allDigits t1 = true := by
      simpa [allDigits] using hd1
    have hc2 : c2.isDigit = true ∧ allDigits t2 = true := by
      simpa [allDigits] using hd2
    rw [List.cons_append, List.cons_append] at hlt
    unfold charsLt at hlt
    by_cases hab : c1 < c2
    · have hb1 := digit_toNat_bounds hc1.1
      have hb2 := digit_toNat_bounds hc2.1
      have htn : c1.toNat < c2.toNat := hab
      unfold digitsVal
      rw [hlen']
      exact mul_pow_add_lt (by omega) (hlen' ▸ digitsVal_lt_pow hc1.2)
    · by_cases hba : c2 < c1
      · rw [if_neg hab, if_pos hba] at hlt; cases hlt
      · rw [if_neg hab, if_neg hba] at hlt
        have hcc : c1 = c2 := le_antisymm (not_lt.mp hba) (not_lt.mp hab)
        subst hcc
        have hne' : t1 ≠ t2 := fun hc => hne (by rw [hc])
        have ih := digit_lex_lt t1 t2 r1 r2 hlen' hc1.2 hc2.2 hlt hne'
        unfold digitsVal
        rw [hlen']
        exact Nat.add_lt_add_left ih _

/-! ## Discovery lemmas -/

/-- What a successful match means: the script's path is the filename, its
id is the numeric value of the 14-digit prefix (which is all digits), and
the name is long enough. -/
theorem parse_spec {name : String} {s : migrationScript}
    (h : parseMigrationName name = some s) :
    s.Path = name ∧ s.ID = digitsVal (name.toList.take 14) ∧
    allDigits (name.toList.take 14) = true ∧ 20 ≤ name.toList.length := by
  simp only [parseMigrationName] at h
  split at h
  · next hcond =>
    cases h
    exact ⟨rfl, rfl, hcond.2.1, hcond.1⟩
  · cases h

theorem matched_cons_dir {e : fileEntry} (rest : List fileEntry)
    (h : e.isDir = true) :
    matchedScripts (e :: rest) = matchedScripts rest := by
  simp [matchedScripts, List.filterMap_cons, h]

theorem matched_cons_skip {e : fileEntry} (rest : List fileEntry)
    (h : e.isDir = false) (hp : parseMigrationName e.name = none) :
    matchedScripts (e :: rest) = matchedScripts rest := by
  simp [matchedScripts, List.filterMap_cons, h, hp]

theorem matched_cons_some {e : fileEntry} (rest : List fileEntry)
    {s : migrationScript} (h : e.isDir = false)
    (hp : parseMigrationName e.name = some s) :
    matchedScripts (e :: rest) = s :: matchedScripts rest := by
  simp [matchedScripts, List.filterMap_cons, h, hp]

/-- A member of the matched list is the parse of its own path. -/
theorem matched_mem_parse {fsys : List fileEntry} {s : migrationScript}
    (h : s ∈ matchedScripts fsys) : parseMigrationName s.Path = some s := by
  unfold matchedScripts at h
  obtain ⟨e, _, he⟩ := List.mem_filterMap.mp h
  by_cases hd : e.isDir = true
  · rw [if_pos hd] at he; cases he
  · rw [if_neg hd] at he
    have := (parse_spec he).1
    rw [this]
    exact he

theorem lookupSeen_mem : ∀ (seen : List (Nat × String)) (id : Nat)
    (n : String), lookupSeen seen id = some n → (id, n) ∈ seen
  | [], _, _ => by intro h; cases h
  | (i, m) :: rest, id, n => by
    intro h
    unfold lookupSeen at h
    by_cases hi : i = id
    · rw [if_pos hi] at h
      cases h
      subst hi
      exact List.mem_cons_self _ _
    · rw [if_neg hi] at h
      exact List.mem_cons_of_mem _ (lookupSeen_mem rest id n h)

theorem lookupSeen_cons_none {i : Nat} {m : String}
    {seen : List (Nat × String)} {id : Nat}
    (h : lookupSeen ((i, m) :: seen) id = none) :
    i ≠ id ∧ lookupSeen seen id = none := by
  unfold lookupSeen at h
  by_cases hi : i = id
  · rw [if_pos hi] at h; cases h
  · rw [if_neg hi] at h; exact ⟨hi, h⟩

/-- If the collection loop succeeds, no matched id was already seen and
the matched ids are pairwise distinct. -/
theorem collect_ok_distinct : ∀ (entries : List fileEntry)
    (seen : List (Nat × String)) (acc l : List migrationScript),
    collectScripts entries seen acc = .ok l →
    (∀ s ∈ matchedScripts entries, lookupSeen seen s.ID = none) ∧
    (matchedScripts entries).Pairwise (fun a b => a.ID ≠ b.ID)
  | [], _, _, _ => by
    intro _
    exact ⟨by simp [matchedScripts], by simp [matchedScripts]⟩
  | e :: rest, seen, acc, l => by
    intro h
    unfold collectScripts at h
    by_cases hdir : e.isDir = true
    · rw [if_pos hdir] at h
      rw [matched_cons_dir rest hdir]
      exact collect_ok_distinct rest seen acc l h
    · have hdir' : e.isDir = false := by
        revert hdir; cases e.isDir <;> simp
      rw [if_neg hdir] at h
      cases hp : parseMigrationName e.name with
      | none =>
        simp only [hp] at h
        rw [matched_cons_skip rest hdir' hp]
        exact collect_ok_distinct rest seen acc l h
      | some s =>
        simp only [hp] at h
        cases hl : lookupSeen seen s.ID with
        | some existing => simp only [hl] at h; cases h
        | none =>
          simp only [hl] at h
          obtain ⟨ih1, ih2⟩ :=
            collect_ok_distinct rest ((s.ID, e.name) :: seen) (acc ++ [s]) l h
          rw [matched_cons_some rest hdir' hp]
          constructor
          · intro x hx
            rcases List.mem_cons.mp hx with rfl | hxr
            · exact hl
            · exact (lookupSeen_cons_none (ih1 x hxr)).2
          · exact List.Pairwise.cons
              (fun b hb => (lookupSeen_cons_none (ih1 b hb)).1) ih2

/-- If no matched id was already seen and the matched ids are pairwise
distinct, the collection loop succeeds and appends exactly the matched
scripts, in directory order. -/
theorem collect_ok_of_distinct : ∀ (entries : List fileEntry)
    (seen : List (Nat × String)) (acc : List migrationScript),
    (∀ s ∈ matchedScripts entries, lookupSeen seen s.ID = none) →
    (matchedScripts entries).Pairwise (fun a b => a.ID ≠ b.ID) →
    collectScripts entries seen acc = .ok (acc ++ matchedScripts entries)
  | [], _, acc => by
    intro _ _
    simp [collectScripts, matchedScripts]
  | e :: rest, seen, acc => by
    intro hlook hpw
    unfold collectScripts
    by_cases hdir : e.isDir = true
    · rw [if_pos hdir]
      rw [matched_cons_dir rest hdir] at hlook hpw ⊢
      exact collect_ok_of_distinct rest seen acc hlook hpw
    · have hdir' : e.isDir = false := by
        revert hdir; cases e.isDir <;> simp
      rw [if_neg hdir]
      cases hp : parseMigrationName e.name with
      | none =>
        rw [matched_cons_skip rest hdir' hp] at hlook hpw ⊢
        exact collect_ok_of_distinct rest seen acc hlook hpw
      | some s =>
        rw [matched_cons_some rest hdir' hp] at hlook hpw ⊢
        have hl : lookupSeen seen s.ID = none :=
          hlook s (List.mem_cons_self s _)
        simp only [hl]
        have hrec := collect_ok_of_distinct rest ((s.ID, e.name) :: seen)
          (acc ++ [s])
          (fun x hx => by
            unfold lookupSeen
            rw [if_neg (List.rel_of_pairwise_cons hpw hx)]
            exact hlook x (List.mem_cons_of_mem s hx))
          (List.Pairwise.of_cons hpw)
        rw [hrec]
        simp

/-- The names carried by a duplicate-id error both belong to matched
entries with that id (given the id is not pre-seeded in `seen`). -/
theorem collect_error_names : ∀ (entries : List fileEntry)
    (seen : List (Nat × String)) (acc : List migrationScript) (i : Nat)
    (n1 n2 : String),
    collectScripts entries seen acc = .error (.duplicateID i n1 n2) →
    ((i, n1) ∈ seen ∨
      ∃ s1 ∈ matchedScripts entries, s1.ID = i ∧ s1.Path = n1) ∧
    (∃ s2 ∈ matchedScripts entries, s2.ID = i ∧ s2.Path = n2)
  | [], _, _, _, _, _ => by intro h; cases h
  | e :: rest, seen, acc, i, n1, n2 => by
    intro h
    unfold collectScripts at h
    by_cases hdir : e.isDir = true
    · rw [if_pos hdir] at h
      rw [matched_cons_dir rest hdir]
      exact collect_error_names rest seen acc i n1 n2 h
    · have hdir' : e.isDir = false := by
        revert hdir; cases e.isDir <;> simp
      rw [if_neg hdir] at h
      cases hp : parseMigrationName e.name with
      | none =>
        simp only [hp] at h
        rw [matched_cons_skip rest hdir' hp]
        exact collect_error_names rest seen acc i n1 n2 h
      | some s =>
        simp only [hp] at h
        rw [matched_cons_some rest hdir' hp]
        cases hl : lookupSeen seen s.ID with
        | some existing =>
          simp only [hl, Except.error.injEq,
            discoveryError.duplicateID.injEq] at h
          obtain ⟨h1, h2, h3⟩ := h
          refine ⟨Or.inl ?_, s, List.mem_cons_self s _, h1,
            (parse_spec hp).1.trans h3⟩
          rw [← h1, ← h2]
          exact lookupSeen_mem seen s.ID existing hl
        | none =>
          simp only [hl] at h
          obtain ⟨ihl, ihr⟩ :=
            collect_error_names rest ((s.ID, e.name) :: seen) (acc ++ [s])
              i n1 n2 h
          constructor
          · rcases ihl with hmem | ⟨s1, hs1, hid, hpa⟩
            · rcases List.mem_cons.mp hmem with heq | hmem2
              · have h1 : i = s.ID := congrArg Prod.fst heq
                have h2 : n1 = e.name := congrArg Prod.snd heq
                exact Or.inr ⟨s, List.mem_cons_self s _, h1.symm,
                  h2 ▸ (parse_spec hp).1⟩
              · exact Or.inl hmem2
            · exact Or.inr ⟨s1, List.mem_cons_of_mem s hs1, hid, hpa⟩
          · obtain ⟨s2, hs2, hid, hpa⟩ := ihr
            exact ⟨s2, List.mem_cons_of_mem s hs2, hid, hpa⟩

/-! ## Lemmas about the modelled filesystem -/

theorem stat_append (fs l : List fsEntry) (p : String) :
    stat (fs ++ l) p = (stat fs p).or (stat l p) :=
  List.find?_append

theorem stat_of_not_exists {fs : List fsEntry} {p : String}
    (h : fileExists fs p = false) : stat fs p = none := by
  unfold fileExists at h
  exact Option.not_isSome_iff_eq_none.mp (by simp [h])

theorem isDirectory_append {fs l : List fsEntry} {q : String}
    (h : isDirectory fs q = true) : isDirectory (fs ++ l) q = true := by
  unfold isDirectory at h ⊢
  rw [stat_append]
  cases hs : stat fs q with
  | none => rw [hs] at h; exact absurd h (by simp)
  | some e => rw [hs] at h; simpa [Option.or] using h

theorem fileExists_append_file (fs : List fsEntry) (p : String) :
    fileExists (fs ++ [⟨p, false⟩]) p = true := by
  unfold fileExists
  rw [stat_append]
  cases hs : stat fs p with
  | none => simp [Option.or, stat, List.find?]
  | some e => simp [Option.or]

theorem isDirectory_append_file_self {fs : List fsEntry} {p : String}
    (h : fileExists fs p = false) :
    isDirectory (fs ++ [⟨p, false⟩]) p = false := by
  unfold isDirectory
  rw [stat_append, stat_of_not_exists h]
  simp [Option.or, stat, List.find?]

theorem defaults_Path (cfg : Config) : cfg.defaults.Path = cfg.Path := rfl

theorem defaults_isMemory (cfg : Config) :
    cfg.defaults.isMemory = cfg.isMemory := rfl

/-- A path that validates satisfies all four rules. -/
theorem validate_parts {fs : List fsEntry} {p : String}
    (hval : validatePersistentPath fs p = none) :
    isAbs p = true ∧ extOf p = ".db" ∧ isDirectory fs p = false ∧
      isDirectory fs (dirOf p) = true := by
  unfold validatePersistentPath at hval
  by_cases h1 : isAbs p = true
  · rw [h1] at hval
    simp only [Bool.not_true, Bool.false_eq_true, if_false] at hval
    by_cases h2 : extOf p = ".db"
    · simp only [h2, ne_eq, not_true_eq_false, if_false] at hval
      cases h3 : isDirectory fs p with
      | true => rw [h3] at hval; exact absurd hval (by simp)
      | false =>
        rw [h3] at hval
        simp only [Bool.false_eq_true, if_false] at hval
        cases h4 : isDirectory fs (dirOf p) with
        | true => exact ⟨h1, h2, rfl, rfl⟩
        | false => rw [h4] at hval; exact absurd hval (by simp)
    · simp [h2] at hval
  · simp [h1] at hval

/-- After creating the file, the path still validates: absoluteness and
extension are path-shape facts, the new entry is a regular file, and the
parent directory entry is found unchanged. -/
theorem validate_append_file {fs : List fsEntry} {p : String}
    (hval : validatePersistentPath fs p = none)
    (hex : fileExists fs p = false) :
    validatePersistentPath (fs ++ [⟨p, false⟩]) p = none := by
  obtain ⟨h1, h2, _, h4⟩ := validate_parts hval
  unfold validatePersistentPath
  rw [h1]
  simp only [Bool.not_true, Bool.false_eq_true, if_false]
  rw [if_neg (by simp [h2])]
  rw [isDirectory_append_file_self hex]
  simp only [Bool.false_eq_true, if_false]
  rw [isDirectory_append h4]
  simp

/-- If `Create` succeeds, all its guards passed and the new filesystem is
the old one with the database file appended. -/
theorem Create_success (exec : String → σ → Except String σ) (u : σ)
    (cfg₀ : Config) (fs : List fsEntry) (ts : Int)
    (h : (Create exec u cfg₀ fs ts).2 = none) :
    cfg₀.isMemory = false ∧
    validatePersistentPath fs cfg₀.Path = none ∧
    fileExists fs cfg₀.Path = false ∧
    (Create exec u cfg₀ fs ts).1 = fs ++ [⟨cfg₀.Path, false⟩] := by
  simp only [Create, defaults_Path, defaults_isMemory] at h
  by_cases hmem : cfg₀.isMemory = true
  · rw [if_pos hmem] at h; exact absurd h (by simp)
  · rw [if_neg hmem] at h
    cases hval : validatePersistentPath fs cfg₀.Path with
    | some e => rw [hval] at h; exact absurd h (by simp)
    | none =>
      rw [hval] at h
      by_cases hex : fileExists fs cfg₀.Path = true
      · rw [if_pos hex] at h; exact absurd h (by simp)
      · rw [if_neg hex] at h
        refine ⟨by simpa using hmem, rfl, by simpa using hex, ?_⟩
        simp only [Create, defaults_Path, defaults_isMemory]
        rw [if_neg hmem, hval, if_neg hex]
        cases ho : openAndMigrate exec cfg₀.defaults (emptyDB u) ts <;>
          simp [ho]

/-! ## Lemmas about Delete's best-effort loop -/

theorem stat_removeFile_self (fs : List fsEntry) (p : String) :
    stat (removeFile fs p) p = none := by
  induction fs with
  | nil => rfl
  | cons e rest ih =>
    unfold removeFile stat at ih ⊢
    rw [List.filter_cons]
    by_cases h : e.path = p
    · rw [if_neg (by simp [h])]
      exact ih
    · rw [if_pos (by simp [h]), List.find?_cons_of_neg _ (by simp [h])]
      exact ih

theorem stat_removeFile_ne (fs : List fsEntry) {p q : String} (h : q ≠ p) :
    stat (removeFile fs p) q = stat fs q := by
  induction fs with
  | nil => rfl
  | cons e rest ih =>
    unfold removeFile stat at ih ⊢
    rw [List.filter_cons]
    by_cases hep : e.path = p
    · rw [if_neg (by simp [hep])]
      have : (e.path == q) = false := by
        simp only [beq_eq_false_iff_ne, ne_eq, hep]
        exact fun hc => h hc.symm
      rw [List.find?_cons_of_neg _ (by simp [this])]
      exact ih
    · rw [if_pos (by simp [hep])]
      by_cases heq : e.path = q
      · rw [List.find?_cons_of_pos _ (by simp [heq]),
          List.find?_cons_of_pos _ (by simp [heq])]
      · rw [List.find?_cons_of_neg _ (by simp [heq]),
          List.find?_cons_of_neg _ (by simp [heq])]
        exact ih

theorem fileExists_removeFile_ne (fs : List fsEntry) {p q : String}
    (h : q ≠ p) : fileExists (removeFile fs p) q = fileExists fs q := by
  unfold fileExists
  rw [stat_removeFile_ne fs h]

theorem isRegularFile_removeFile_ne (fs : List fsEntry) {p q : String}
    (h : q ≠ p) : isRegularFile (removeFile fs p) q = isRegularFile fs q := by
  unfold isRegularFile
  rw [stat_removeFile_ne fs h]

theorem isRegularFile_exists {fs : List fsEntry} {p : String}
    (h : isRegularFile fs p = true) : fileExists fs p = true := by
  unfold isRegularFile at h
  unfold fileExists
  cases hs : stat fs p with
  | none => rw [hs] at h; cases h
  | some e => simp

theorem keepFirst_assoc (a b c : Option lifecycleError) :
    keepFirst (keepFirst a b) c = keepFirst a (keepFirst b c) := by
  cases a <;> cases b <;> rfl

/-- Full characterization of the sidecar loop: paths not among the
visited names keep their stat; every regular file among the visited names
is removed (even when an earlier name errored); the resulting error is
the first complaint, in visiting order, about an existing non-regular
name. -/
theorem delete_loop (path : String) :
    ∀ (sfxs : List String) (f : List fsEntry) (err : Option lifecycleError),
      (sfxs.Pairwise fun a b => path ++ a ≠ path ++ b) →
      (∀ q, (∀ sfx ∈ sfxs, q ≠ path ++ sfx) →
        stat (sfxs.foldl (deleteStep path) (f, err)).1 q = stat f q) ∧
      (∀ sfx ∈ sfxs, isRegularFile f (path ++ sfx) = true →
        fileExists (sfxs.foldl (deleteStep path) (f, err)).1 (path ++ sfx)
          = false) ∧
      ((sfxs.foldl (deleteStep path) (f, err)).2 =
        keepFirst err (((sfxs.filter fun sfx =>
            fileExists f (path ++ sfx) && !isRegularFile f (path ++ sfx)).head?).map
          fun sfx => .notRegular (path ++ sfx))) := by
  intro sfxs
  induction sfxs with
  | nil =>
    intro f err _
    refine ⟨fun q _ => rfl, by simp, ?_⟩
    cases err <;> rfl
  | cons s rest ih =>
    intro f err hpw
    have hs : ∀ b ∈ rest, path ++ s ≠ path ++ b :=
      fun b hb => List.rel_of_pairwise_cons hpw hb
    have hrest := List.Pairwise.of_cons hpw
    by_cases he : fileExists f (path ++ s) = true
    · by_cases hr : isRegularFile f (path ++ s) = true
      · -- regular: this step removes the file and keeps the error
        have hstep : deleteStep path (f, err) s =
            (removeFile f (path ++ s), err) := by
          simp [deleteStep, he, hr]
        obtain ⟨ih1, ih2, ih3⟩ := ih (removeFile f (path ++ s)) err hrest
        have hpres : ∀ b ∈ rest,
            (fileExists (removeFile f (path ++ s)) (path ++ b) &&
              !isRegularFile (removeFile f (path ++ s)) (path ++ b)) =
            (fileExists f (path ++ b) && !isRegularFile f (path ++ b)) := by
          intro b hb
          rw [fileExists_removeFile_ne f (hs b hb).symm,
            isRegularFile_removeFile_ne f (hs b hb).symm]
        refine ⟨?_, ?_, ?_⟩
        · intro q hq
          rw [List.foldl_cons, hstep,
            ih1 q fun sfx hx => hq sfx (List.mem_cons_of_mem s hx)]
          exact stat_removeFile_ne f (hq s (List.mem_cons_self s rest))
        · intro sfx hmem hreg
          rcases List.mem_cons.mp hmem with rfl | hmemr
          · rw [List.foldl_cons, hstep]
            have : stat ((rest.foldl (deleteStep path)
                (removeFile f (path ++ sfx), err)).1) (path ++ sfx) = none := by
              rw [ih1 (path ++ sfx) fun b hb => hs b hb]
              exact stat_removeFile_self f (path ++ sfx)
            unfold fileExists
            rw [this]
            rfl
          · rw [List.foldl_cons, hstep]
            exact ih2 sfx hmemr
              (by rw [isRegularFile_removeFile_ne f (hs sfx hmemr).symm]; exact hreg)
        · rw [List.foldl_cons, hstep, ih3, List.filter_cons]
          have : (fileExists f (path ++ s) && !isRegularFile f (path ++ s))
              = false := by rw [he, hr]; rfl
          rw [this]
          simp only [Bool.false_eq_true, if_false]
          rw [List.filter_congr hpres]
      · -- exists but not regular: record the first error, keep the files
        have hstep : deleteStep path (f, err) s =
            (f, keepFirst err (some (.notRegular (path ++ s)))) := by
          simp [deleteStep, he, hr]
        obtain ⟨ih1, ih2, ih3⟩ :=
          ih f (keepFirst err (some (.notRegular (path ++ s)))) hrest
        refine ⟨?_, ?_, ?_⟩
        · intro q hq
          rw [List.foldl_cons, hstep,
            ih1 q fun sfx hx => hq sfx (List.mem_cons_of_mem s hx)]
        · intro sfx hmem hreg
          rcases List.mem_cons.mp hmem with rfl | hmemr
          · exact absurd hreg (by simp [hr])
          · rw [List.foldl_cons, hstep]
            exact ih2 sfx hmemr hreg
        · rw [List.foldl_cons, hstep, ih3, keepFirst_assoc, List.filter_cons]
          have : (fileExists f (path ++ s) && !isRegularFile f (path ++ s))
              = true := by
            rw [he]
            cases hrr : isRegularFile f (path ++ s) with
            | true => exact absurd hrr hr
            | false => rfl
          rw [this]
          rfl
    · -- absent: skip
      have hstep : deleteStep path (f, err) s = (f, err) := by
        simp [deleteStep, he]
      obtain ⟨ih1, ih2, ih3⟩ := ih f err hrest
      refine ⟨?_, ?_, ?_⟩
      · intro q hq
        rw [List.foldl_cons, hstep,
          ih1 q fun sfx hx => hq sfx (List.mem_cons_of_mem s hx)]
      · intro sfx hmem hreg
        rcases List.mem_cons.mp hmem with rfl | hmemr
        · exact absurd (isRegularFile_exists hreg) (by simp [he])
        · rw [List.foldl_cons, hstep]
          exact ih2 sfx hmemr hreg
      · rw [List.foldl_cons, hstep, ih3, List.filter_cons]
        have : (fileExists f (path ++ s) && !isRegularFile f (path ++ s))
            = false := by
          cases hee : fileExists f (path ++ s) with
          | true => exact absurd hee he
          | false => rfl
        rw [this]
        simp only [Bool.false_eq_true, if_false]

/-! ## Claim theorems -/

/-- C1: if, with the database in state `st1` (reached after a cleanly
committed prefix `pre` of the discovered scripts), applying a pending
script `s` fails — its SQL errors, its `schema_migrations` insert errors,
or the `schema.version` update affects a row count other than 1, all the
`applyError` cases — then the whole run returns that error and the final
database state is exactly `st1`: the failed script's transaction left no
trace (`schema.version` and the `schema_migrations` rows included), and
the scripts in `post` are never attempted (the result is the same for
every `post`). -/
theorem migrate_failed_script_rolls_back
    (exec : String → σ → Except String σ) (cfg : Config) (st : DBState σ)
    (ts : Int) (v : Int) (fsys : List fileEntry)
    (scripts pre post : List migrationScript) (s : migrationScript)
    (st1 : DBState σ) (e : applyError)
    (hver : fetchSchemaVersion st = .ok (some v))
    (hm : cfg.Migrations = some fsys)
    (hl : listMigrationFiles fsys = .ok scripts)
    (hsplit : scripts = pre ++ s :: post)
    (hpre : applyPending exec fsys ((fetchAppliedMigrations st).map (·.Path))
      ts pre st = (st1, none))
    (hpend : s.Path ∉ (fetchAppliedMigrations st).map (·.Path))
    (hfail : applyMigration exec fsys st1 s ts = .error e) :
    migrate exec cfg st ts = (st1, some (.applyFailed s.Path e)) := by
  have hne : ((pre ++ s :: post).isEmpty) = false := by
    cases pre <;> rfl
  simp only [migrate, hver, hm, hl, hsplit, hne, Option.isNone_some,
    Bool.false_eq_true, if_false]
  rw [applyPending_append exec fsys _ ts pre st st1 (s :: post) hpre]
  unfold applyPending
  rw [if_neg hpend, hfail]

/-- C1 witness: a two-script collection whose second script's SQL errors;
the run stops there with the first script committed and nothing from the
second. -/
theorem migrate_failed_script_rolls_back_witness :
    migrate (fun s (u : Unit) => if s = "BOOM" then .error "boom" else .ok u)
      ⟨":memory:",
        some [⟨"20260101000001_a.sql", false, "ok"⟩,
          ⟨"20260101000002_b.sql", false, "BOOM"⟩],
        "ENV", false, false, "", 0⟩
      ⟨true,
        [⟨"schema.version", "0", 0, 0⟩, ⟨"app.version", "", 0, 0⟩,
          ⟨"db.created_at", "", 0, 0⟩],
        [⟨0, "init", "schema.sql", 5, 5, 5⟩], ()⟩ 7 =
      (⟨true,
        [⟨"schema.version", "20260101000001", 0, 7⟩, ⟨"app.version", "", 0, 0⟩,
          ⟨"db.created_at", "", 0, 0⟩],
        [⟨0, "init", "schema.sql", 5, 5, 5⟩,
          ⟨20260101000001, "a", "20260101000001_a.sql", 7, 7, 7⟩], ()⟩,
       some (.applyFailed "20260101000002_b.sql" (.execFailed "boom"))) := by
  exact migrate_failed_script_rolls_back
    (fun s (u : Unit) => if s = "BOOM" then .error "boom" else .ok u)
    ⟨":memory:",
      some [⟨"20260101000001_a.sql", false, "ok"⟩,
        ⟨"20260101000002_b.sql", false, "BOOM"⟩],
      "ENV", false, false, "", 0⟩
    ⟨true,
      [⟨"schema.version", "0", 0, 0⟩, ⟨"app.version", "", 0, 0⟩,
        ⟨"db.created_at", "", 0, 0⟩],
      [⟨0, "init", "schema.sql", 5, 5, 5⟩], ()⟩ 7 0
    [⟨"20260101000001_a.sql", false, "ok"⟩,
      ⟨"20260101000002_b.sql", false, "BOOM"⟩]
    [⟨20260101000001, "a", "20260101000001_a.sql"⟩,
      ⟨20260101000002, "b", "20260101000002_b.sql"⟩]
    [⟨20260101000001, "a", "20260101000001_a.sql"⟩] []
    ⟨20260101000002, "b", "20260101000002_b.sql"⟩
    ⟨true,
      [⟨"schema.version", "20260101000001", 0, 7⟩, ⟨"app.version", "", 0, 0⟩,
        ⟨"db.created_at", "", 0, 0⟩],
      [⟨0, "init", "schema.sql", 5, 5, 5⟩,
        ⟨20260101000001, "a", "20260101000001_a.sql", 7, 7, 7⟩], ()⟩
    (.execFailed "boom")
    (by decide) rfl (by decide) (by decide) (by decide) (by decide)
    (by decide)

/-- C2: a migration run on an initialized database whose applied-record
paths include every discovered script's path is a no-op: it returns no
error and leaves the database state — `schema.version`, the
`schema_migrations` rows, everything — exactly unchanged, because every
script is skipped by path. -/
theorem migrate_idempotent_when_all_applied
    (exec : String → σ → Except String σ) (cfg : Config) (st : DBState σ)
    (ts : Int) (v : Int) (fsys : List fileEntry)
    (scripts : List migrationScript)
    (hver : fetchSchemaVersion st = .ok (some v))
    (hm : cfg.Migrations = some fsys)
    (hl : listMigrationFiles fsys = .ok scripts)
    (hall : ∀ s ∈ scripts, s.Path ∈ (fetchAppliedMigrations st).map (·.Path)) :
    migrate exec cfg st ts = (st, none) := by
  simp only [migrate, hver, hm, hl, Option.isNone_some, Bool.false_eq_true,
    if_false]
  cases hs : scripts.isEmpty with
  | true => simp only [hs, if_true]
  | false =>
    simp only [hs, Bool.false_eq_true, if_false]
    exact applyPending_all_skipped exec fsys _ ts scripts st hall

/-- C2 witness: re-running on a database that already has the single
discovered script applied changes nothing. -/
theorem migrate_idempotent_when_all_applied_witness :
    migrate (fun _ (u : Unit) => .ok u)
      ⟨":memory:", some [⟨"20260101000007_c.sql", false, "x"⟩],
        "ENV", false, false, "", 0⟩
      ⟨true,
        [⟨"schema.version", "20260101000007", 0, 3⟩, ⟨"app.version", "", 0, 0⟩,
          ⟨"db.created_at", "", 0, 0⟩],
        [⟨0, "init", "schema.sql", 1, 1, 1⟩,
          ⟨20260101000007, "c", "20260101000007_c.sql", 3, 3, 3⟩], ()⟩ 9 =
      (⟨true,
        [⟨"schema.version", "20260101000007", 0, 3⟩, ⟨"app.version", "", 0, 0⟩,
          ⟨"db.created_at", "", 0, 0⟩],
        [⟨0, "init", "schema.sql", 1, 1, 1⟩,
          ⟨20260101000007, "c", "20260101000007_c.sql", 3, 3, 3⟩], ()⟩, none) := by
  exact migrate_idempotent_when_all_applied (fun _ (u : Unit) => .ok u)
    ⟨":memory:", some [⟨"20260101000007_c.sql", false, "x"⟩],
      "ENV", false, false, "", 0⟩
    ⟨true,
      [⟨"schema.version", "20260101000007", 0, 3⟩, ⟨"app.version", "", 0, 0⟩,
        ⟨"db.created_at", "", 0, 0⟩],
      [⟨0, "init", "schema.sql", 1, 1, 1⟩,
        ⟨20260101000007, "c", "20260101000007_c.sql", 3, 3, 3⟩], ()⟩ 9
    20260101000007 [⟨"20260101000007_c.sql", false, "x"⟩]
    [⟨20260101000007, "c", "20260101000007_c.sql"⟩]
    (by decide) rfl (by decide) (by decide)

/-- C5: reading the schema version distinguishes the two absence cases.
If the infrastructure tables do not exist ("no such table"), the database
counts as uninitialized — `fetchSchemaVersion` returns `none` without
error — and `migrate` runs the infrastructure initialization (which
succeeds and records the id-0 row; with no user migrations the run ends
there successfully).  If the table exists but the `schema.version` row is
absent, the read is a hard error and `migrate` aborts immediately with
it, leaving the state untouched. -/
theorem fetchSchemaVersion_distinguishes_absence
    (exec : String → σ → Except String σ) (cfg : Config) (st : DBState σ)
    (ts : Int) :
    (st.hasTables = false →
      fetchSchemaVersion st = .ok none ∧
      ∃ st1, applySchemaInit cfg st ts = .ok st1 ∧ st1.hasTables = true ∧
        (⟨0, "init", "schema.sql", ts, ts, ts⟩ : schemaMigrationRow)
          ∈ st1.schemaMigrations ∧
        (cfg.Migrations = none → migrate exec cfg st ts = (st1, none))) ∧
    (st.hasTables = true →
      (st.config.find? fun r => r.key == "schema.version") = none →
      fetchSchemaVersion st = .error .missingVersionRow ∧
      migrate exec cfg st ts = (st, some .missingVersionRow)) := by
  constructor
  · intro h
    have hfetch : fetchSchemaVersion st = .ok none := by
      simp [fetchSchemaVersion, h]
    obtain ⟨st1, hinit, htab, hmem⟩ := applySchemaInit_of_uninit cfg st ts h
    refine ⟨hfetch, st1, hinit, htab, hmem, fun hnone => ?_⟩
    simp [migrate, hfetch, hinit, hnone]
  · intro h1 h2
    have hfetch : fetchSchemaVersion st = .error .missingVersionRow := by
      simp [fetchSchemaVersion, h1, h2]
    exact ⟨hfetch, by simp [migrate, hfetch]⟩

/-- C5 witness: an empty database is uninitialized and gets initialized;
a database with a `config` table but no `schema.version` row hard-errors. -/
theorem fetchSchemaVersion_distinguishes_absence_witness :
    (fetchSchemaVersion (emptyDB ()) = .ok none ∧
      ∃ st1, applySchemaInit ⟨":memory:", none, "ENV", false, false, "", 0⟩
          (emptyDB ()) 4 = .ok st1 ∧ st1.hasTables = true ∧
        (⟨0, "init", "schema.sql", 4, 4, 4⟩ : schemaMigrationRow)
          ∈ st1.schemaMigrations ∧
        ((⟨":memory:", none, "ENV", false, false, "", 0⟩ : Config).Migrations
            = none →
          migrate (fun _ (u : Unit) => .ok u)
            ⟨":memory:", none, "ENV", false, false, "", 0⟩ (emptyDB ()) 4 =
            (st1, none))) ∧
    (fetchSchemaVersion (⟨true, [⟨"app.version", "", 0, 0⟩], [], ()⟩ :
        DBState Unit) = .error .missingVersionRow ∧
      migrate (fun _ (u : Unit) => .ok u)
        ⟨":memory:", none, "ENV", false, false, "", 0⟩
        ⟨true, [⟨"app.version", "", 0, 0⟩], [], ()⟩ 4 =
        (⟨true, [⟨"app.version", "", 0, 0⟩], [], ()⟩, some .missingVersionRow)) :=
  ⟨(fetchSchemaVersion_distinguishes_absence (fun _ (u : Unit) => .ok u)
      ⟨":memory:", none, "ENV", false, false, "", 0⟩ (emptyDB ()) 4).1 rfl,
   (fetchSchemaVersion_distinguishes_absence (fun _ (u : Unit) => .ok u)
      ⟨":memory:", none, "ENV", false, false, "", 0⟩
      ⟨true, [⟨"app.version", "", 0, 0⟩], [], ()⟩ 4).2 rfl (by decide)⟩

/-- C6: opening an in-memory database when the configured production
environment variable's value equals "production" case-insensitively is
rejected with the production error before any storage is touched, unless
`AllowMemoryInProduction` is set, in which case the open proceeds exactly
as it would without the check. -/
theorem openMemory_production_guard
    (exec : String → σ → Except String σ) (u : σ) (cfg : Config)
    (env : List (String × String)) (ts : Int)
    (hprod : eqFold (getenv env cfg.ProductionEnvVar) "production" = true) :
    (cfg.AllowMemoryInProduction = false →
      openMemory exec u cfg env ts =
        .error (.memoryInProduction cfg.ProductionEnvVar)) ∧
    (cfg.AllowMemoryInProduction = true →
      openMemory exec u cfg env ts = openAndMigrate exec cfg (emptyDB u) ts) := by
  unfold openMemory Config.isProduction
  rw [hprod]
  constructor <;> intro h <;> simp [h]

/-- C6 witness: with `TEST_ENV=PRODUCTION` (mixed case) the memory open is
rejected; with the override it proceeds to the normal open. -/
theorem openMemory_production_guard_witness :
    (openMemory (fun _ (u : Unit) => .ok u) ()
        ⟨":memory:", none, "TEST_ENV", false, false, "", 0⟩
        [("TEST_ENV", "PRODUCTION")] 0 =
      .error (.memoryInProduction "TEST_ENV")) ∧
    (openMemory (fun _ (u : Unit) => .ok u) ()
        ⟨":memory:", none, "TEST_ENV", true, false, "", 0⟩
        [("TEST_ENV", "PRODUCTION")] 0 =
      openAndMigrate (fun _ (u : Unit) => .ok u)
        ⟨":memory:", none, "TEST_ENV", true, false, "", 0⟩ (emptyDB ()) 0) :=
  ⟨(openMemory_production_guard (fun _ (u : Unit) => .ok u) ()
      ⟨":memory:", none, "TEST_ENV", false, false, "", 0⟩
      [("TEST_ENV", "PRODUCTION")] 0 (by decide)).1 rfl,
   (openMemory_production_guard (fun _ (u : Unit) => .ok u) ()
      ⟨":memory:", none, "TEST_ENV", true, false, "", 0⟩
      [("TEST_ENV", "PRODUCTION")] 0 (by decide)).2 rfl⟩

/-- C10: the post-migration required-version check runs only when
`RequiredSchemaVersion` is non-zero.  With it zero, `openAndMigrate`
performs no comparison and returns the post-migration state whatever its
live version (so "require version 0" is inexpressible); with it non-zero,
the open fails when the database is uninitialized and when the live
version differs from the requirement. -/
theorem requiredVersion_check_only_when_nonzero
    (exec : String → σ → Except String σ) (cfg : Config) (st st1 : DBState σ)
    (ts : Int) (hmig : migrateOrSkip exec cfg st ts = .ok st1) :
    (cfg.RequiredSchemaVersion = 0 →
      openAndMigrate exec cfg st ts = .ok st1) ∧
    (cfg.RequiredSchemaVersion ≠ 0 → fetchSchemaVersion st1 = .ok none →
      openAndMigrate exec cfg st ts = .error .notInitialized) ∧
    (∀ v : Int, cfg.RequiredSchemaVersion ≠ 0 →
      fetchSchemaVersion st1 = .ok (some v) →
      v ≠ cfg.RequiredSchemaVersion →
      openAndMigrate exec cfg st ts =
        .error (.versionMismatch cfg.RequiredSchemaVersion v)) := by
  unfold openAndMigrate
  rw [hmig]
  refine ⟨fun h0 => ?_, fun hne hv => ?_, fun v hne hv hvne => ?_⟩
  · simp [checkRequiredVersion, h0]
  · simp [checkRequiredVersion, hne, hv]
  · simp [checkRequiredVersion, hne, hv, hvne]

/-- C10 witness: requirement 5 against an uninitialized database fails
with the not-initialized error; requirement 0 succeeds on the same
database; requirement 5 against live version 3 reports the mismatch.
(`SkipMigrations` is set so the checked state is the stored one.) -/
theorem requiredVersion_check_only_when_nonzero_witness :
    (openAndMigrate (fun _ (u : Unit) => .ok u)
        ⟨":memory:", none, "ENV", false, true, "", 5⟩ (emptyDB ()) 0 =
      .error .notInitialized) ∧
    (openAndMigrate (fun _ (u : Unit) => .ok u)
        ⟨":memory:", none, "ENV", false, true, "", 0⟩ (emptyDB ()) 0 =
      .ok (emptyDB ())) ∧
    (openAndMigrate (fun _ (u : Unit) => .ok u)
        ⟨":memory:", none, "ENV", false, true, "", 5⟩
        ⟨true, [⟨"schema.version", "3", 0, 0⟩], [], ()⟩ 0 =
      .error (.versionMismatch 5 3)) :=
  ⟨(requiredVersion_check_only_when_nonzero (fun _ (u : Unit) => .ok u)
      ⟨":memory:", none, "ENV", false, true, "", 5⟩ (emptyDB ()) (emptyDB ()) 0
      (by decide)).2.1 (by decide) (by decide),
   (requiredVersion_check_only_when_nonzero (fun _ (u : Unit) => .ok u)
      ⟨":memory:", none, "ENV", false, true, "", 0⟩ (emptyDB ()) (emptyDB ()) 0
      (by decide)).1 rfl,
   (requiredVersion_check_only_when_nonzero (fun _ (u : Unit) => .ok u)
      ⟨":memory:", none, "ENV", false, true, "", 5⟩
      ⟨true, [⟨"schema.version", "3", 0, 0⟩], [], ()⟩
      ⟨true, [⟨"schema.version", "3", 0, 0⟩], [], ()⟩ 0
      (by decide)).2.2 3 (by decide) (by decide) (by decide)⟩

/-- C7: `Create` rejects in-memory locations, surfaces every path
validation error (absolute path, `.db` extension, not a directory,
existing parent), returns the already-exists error leaving the filesystem
unmodified whenever a file is present at the path, and — consequently — a
second `Create` at the same path right after a successful first one fails
with the already-exists error. -/
theorem Create_rejections (exec : String → σ → Except String σ) (u : σ)
    (cfg₀ : Config) (fs : List fsEntry) (ts : Int) :
    (cfg₀.isMemory = true →
      Create exec u cfg₀ fs ts = (fs, some .memoryNotAllowed)) ∧
    (∀ e, cfg₀.isMemory = false →
      validatePersistentPath fs cfg₀.Path = some e →
      Create exec u cfg₀ fs ts = (fs, some (.invalidPath cfg₀.Path e))) ∧
    (cfg₀.isMemory = false → validatePersistentPath fs cfg₀.Path = none →
      fileExists fs cfg₀.Path = true →
      Create exec u cfg₀ fs ts = (fs, some (.alreadyExists cfg₀.Path))) ∧
    ((Create exec u cfg₀ fs ts).2 = none →
      Create exec u cfg₀ (Create exec u cfg₀ fs ts).1 ts =
        ((Create exec u cfg₀ fs ts).1, some (.alreadyExists cfg₀.Path))) := by
  refine ⟨fun hmem => ?_, fun e hmem hval => ?_, fun hmem hval hex => ?_,
    fun h => ?_⟩
  · simp only [Create, defaults_isMemory, defaults_Path]
    rw [if_pos hmem]
  · simp only [Create, defaults_isMemory, defaults_Path]
    rw [if_neg (by simp [hmem]), hval]
  · simp only [Create, defaults_isMemory, defaults_Path]
    rw [if_neg (by simp [hmem]), hval, if_pos hex]
  · obtain ⟨hmem, hval, hex, hfs1⟩ := Create_success exec u cfg₀ fs ts h
    rw [hfs1]
    simp only [Create, defaults_isMemory, defaults_Path]
    rw [if_neg (by simp [hmem])]
    rw [validate_append_file hval hex]
    simp [fileExists_append_file]

/-- C7 witness: `Create` on `:memory:` fails; on a path with an existing
file it reports already-exists without touching the filesystem; a second
`Create` after a successful first one fails. -/
theorem Create_rejections_witness :
    (Create (fun _ (u : Unit) => .ok u) ()
        ⟨":memory:", none, "ENV", false, false, "", 0⟩ [] 0 =
      ([], some .memoryNotAllowed)) ∧
    (Create (fun _ (u : Unit) => .ok u) ()
        ⟨"/tmp/test.db", none, "ENV", false, false, "", 0⟩
        [⟨"/tmp", true⟩, ⟨"/tmp/test.db", false⟩] 0 =
      ([⟨"/tmp", true⟩, ⟨"/tmp/test.db", false⟩],
        some (.alreadyExists "/tmp/test.db"))) ∧
    ((Create (fun _ (u : Unit) => .ok u) ()
        ⟨"/tmp/test.db", none, "ENV", false, false, "", 0⟩
        [⟨"/tmp", true⟩] 0).2 = none ∧
      Create (fun _ (u : Unit) => .ok u) ()
        ⟨"/tmp/test.db", none, "ENV", false, false, "", 0⟩
        (Create (fun _ (u : Unit) => .ok u) ()
          ⟨"/tmp/test.db", none, "ENV", false, false, "", 0⟩
          [⟨"/tmp", true⟩] 0).1 0 =
      ((Create (fun _ (u : Unit) => .ok u) ()
          ⟨"/tmp/test.db", none, "ENV", false, false, "", 0⟩
          [⟨"/tmp", true⟩] 0).1,
        some (.alreadyExists "/tmp/test.db"))) :=
  ⟨(Create_rejections (fun _ (u : Unit) => .ok u) ()
      ⟨":memory:", none, "ENV", false, false, "", 0⟩ [] 0).1 rfl,
   (Create_rejections (fun _ (u : Unit) => .ok u) ()
      ⟨"/tmp/test.db", none, "ENV", false, false, "", 0⟩
      [⟨"/tmp", true⟩, ⟨"/tmp/test.db", false⟩] 0).2.2.1 rfl (by decide)
      (by decide),
   by decide,
   (Create_rejections (fun _ (u : Unit) => .ok u) ()
      ⟨"/tmp/test.db", none, "ENV", false, false, "", 0⟩
      [⟨"/tmp", true⟩] 0).2.2.2 (by decide)⟩

/-- Appending distinct suffixes to the same path gives distinct names. -/
theorem append_ne_of_suffix_ne (p : String) {s t : String}
    (h : s.data ≠ t.data) : p ++ s ≠ p ++ t := by
  intro hc
  exact h (List.append_cancel_left
    (by rw [← String.data_append, ← String.data_append, hc]))

/-- C8: `Delete` rejects in-memory locations; on a validated path whose
primary file is absent it succeeds without touching anything; otherwise
it visits the primary file and the `-shm` and `-wal` sidecars in order,
removes every one that is a regular file — continuing even after an
earlier name errored —, returns exactly the first error encountered
(a complaint about an existing non-regular name, the only removal failure
expressible in the model), and its success implies the primary file is
verified gone. -/
theorem Delete_behavior (fs : List fsEntry) (path : String) :
    ((path == ":memory:" ||
        "file::memory:".toList.isPrefixOf path.toList) = true →
      Delete fs path = (fs, some .memoryNotAllowed)) ∧
    ((path == ":memory:" ||
        "file::memory:".toList.isPrefixOf path.toList) = false →
      validatePersistentPath fs path = none →
      (fileExists fs path = false → Delete fs path = (fs, none)) ∧
      (fileExists fs path = true →
        (∀ sfx ∈ ["", "-shm", "-wal"], isRegularFile fs (path ++ sfx) = true →
          fileExists (Delete fs path).1 (path ++ sfx) = false) ∧
        ((Delete fs path).2 =
          ((["", "-shm", "-wal"].filter fun sfx =>
              fileExists fs (path ++ sfx) &&
                !isRegularFile fs (path ++ sfx)).head?).map
            fun sfx => lifecycleError.notRegular (path ++ sfx)) ∧
        ((Delete fs path).2 = none →
          fileExists (Delete fs path).1 path = false))) := by
  constructor
  · intro hmem
    unfold Delete
    rw [hmem]
    rfl
  · intro hmem hval
    have hpw : (["", "-shm", "-wal"] : List String).Pairwise
        (fun a b => path ++ a ≠ path ++ b) := by
      refine List.Pairwise.cons ?_ (List.Pairwise.cons ?_
        (List.Pairwise.cons ?_ List.Pairwise.nil))
      · intro b hb
        rcases List.mem_cons.mp hb with rfl | hb
        · exact append_ne_of_suffix_ne path (by decide)
        · rcases List.mem_singleton.mp hb with rfl
          exact append_ne_of_suffix_ne path (by decide)
      · intro b hb
        rcases List.mem_singleton.mp hb with rfl
        exact append_ne_of_suffix_ne path (by decide)
      · intro b hb
        exact absurd hb (List.not_mem_nil b)
    obtain ⟨l1, l2, l3⟩ := delete_loop path ["", "-shm", "-wal"] fs none hpw
    constructor
    · intro hne
      unfold Delete
      rw [hmem, hval, hne]
      rfl
    · intro hex
      have hr2 : (["", "-shm", "-wal"].foldl (deleteStep path) (fs, none)).2 =
          ((["", "-shm", "-wal"].filter fun sfx =>
              fileExists fs (path ++ sfx) &&
                !isRegularFile fs (path ++ sfx)).head?).map
            fun sfx => lifecycleError.notRegular (path ++ sfx) := by
      -- `keepFirst none` is the identity
        simpa [keepFirst] using l3
      have hD : Delete fs path =
          (match (["", "-shm", "-wal"].foldl (deleteStep path) (fs, none)).2 with
           | some e =>
             ((["", "-shm", "-wal"].foldl (deleteStep path) (fs, none)).1, some e)
           | none =>
             if fileExists
                 (["", "-shm", "-wal"].foldl (deleteStep path) (fs, none)).1 path
                 = true then
               ((["", "-shm", "-wal"].foldl (deleteStep path) (fs, none)).1,
                 some (.stillExists path))
             else
               ((["", "-shm", "-wal"].foldl (deleteStep path) (fs, none)).1,
                 none)) := by
        unfold Delete
        rw [hmem, hval, hex]
        rfl
      cases hh : (["", "-shm", "-wal"].filter fun sfx =>
          fileExists fs (path ++ sfx) &&
            !isRegularFile fs (path ++ sfx)).head? with
      | some sfx =>
        have h2 : (["", "-shm", "-wal"].foldl (deleteStep path) (fs, none)).2 =
            some (.notRegular (path ++ sfx)) := by rw [hr2, hh]; rfl
        rw [h2] at hD
        refine ⟨fun x hx hreg => ?_, ?_, ?_⟩
        · rw [hD]
          exact l2 x hx hreg
        · rw [hD]
          rfl
        · intro hcon
          rw [hD] at hcon
          exact absurd hcon (by simp)
      | none =>
        have h2 : (["", "-shm", "-wal"].foldl (deleteStep path) (fs, none)).2 =
            none := by rw [hr2, hh]; rfl
        rw [h2] at hD
        have hreg0 : isRegularFile fs path = true := by
          have hbad := (List.filter_eq_nil_iff.mp
            (List.head?_eq_none_iff.mp hh)) "" (by decide)
          rw [String.append_empty] at hbad
          cases hrr : isRegularFile fs path with
          | true => rfl
          | false => exact absurd (by rw [hex, hrr]; rfl) hbad
        have hgone : fileExists
            (["", "-shm", "-wal"].foldl (deleteStep path) (fs, none)).1 path
            = false := by
          have := l2 "" (by decide)
            (by rw [String.append_empty]; exact hreg0)
          rwa [String.append_empty] at this
        rw [hgone] at hD
        simp only [Bool.false_eq_true, if_false] at hD
        refine ⟨fun x hx hreg => ?_, ?_, fun _ => ?_⟩
        · rw [hD]
          exact l2 x hx hreg
        · rw [hD]
          rfl
        · rw [hD]
          exact hgone

/-- C8 witness: memory rejection; no-op success on an absent file; with a
directory squatting on the `-shm` name, the primary and `-wal` files are
still both removed and the first (only) error is the `-shm` complaint. -/
theorem Delete_behavior_witness :
    (Delete [] ":memory:" = ([], some .memoryNotAllowed)) ∧
    (Delete [⟨"/tmp", true⟩] "/tmp/absent.db" = ([⟨"/tmp", true⟩], none)) ∧
    (fileExists
      (Delete [⟨"/tmp", true⟩, ⟨"/tmp/test.db", false⟩,
        ⟨"/tmp/test.db-shm", true⟩, ⟨"/tmp/test.db-wal", false⟩]
        "/tmp/test.db").1 ("/tmp/test.db" ++ "-wal") = false) ∧
    ((Delete [⟨"/tmp", true⟩, ⟨"/tmp/test.db", false⟩,
        ⟨"/tmp/test.db-shm", true⟩, ⟨"/tmp/test.db-wal", false⟩]
        "/tmp/test.db").2 = some (.notRegular "/tmp/test.db-shm")) :=
  ⟨(Delete_behavior [] ":memory:").1 (by decide),
   ((Delete_behavior [⟨"/tmp", true⟩] "/tmp/absent.db").2 (by decide)
      (by decide)).1 (by decide),
   (((Delete_behavior [⟨"/tmp", true⟩, ⟨"/tmp/test.db", false⟩,
        ⟨"/tmp/test.db-shm", true⟩, ⟨"/tmp/test.db-wal", false⟩]
        "/tmp/test.db").2 (by decide) (by decide)).2 (by decide)).1
      "-wal" (by decide) (by decide),
   ((((Delete_behavior [⟨"/tmp", true⟩, ⟨"/tmp/test.db", false⟩,
        ⟨"/tmp/test.db-shm", true⟩, ⟨"/tmp/test.db-wal", false⟩]
        "/tmp/test.db").2 (by decide) (by decide)).2 (by decide)).2.1).trans
      (by decide)⟩

/-- C9: `Status` rejects in-memory locations; a missing persistent file
reports not-initialized without error; otherwise the database is opened
with migrations forced off (the snapshot is computed on the stored state
`db` unchanged) and the snapshot carries the stored schema version, the
applied records, and exactly the discovered script paths without an
applied record (set difference by path).  A stored state without the
infrastructure tables reports not-initialized.  (`RequiredSchemaVersion`
is taken as 0, its default, so the open's required-version check does not
interfere.) -/
theorem Status_snapshot (exec : String → σ → Except String σ)
    (cfg₀ : Config) (fs : List fsEntry) (db : DBState σ) (ts : Int) :
    (cfg₀.isMemory = true →
      Status exec cfg₀ fs db ts = .error .memoryNotAllowed) ∧
    (cfg₀.isMemory = false → fileExists fs cfg₀.Path = false →
      Status exec cfg₀ fs db ts = .ok ⟨0, [], [], false⟩) ∧
    (∀ (v : Int) (fsys : List fileEntry) (scripts : List migrationScript),
      cfg₀.isMemory = false →
      validatePersistentPath fs cfg₀.Path = none →
      fileExists fs cfg₀.Path = true →
      cfg₀.RequiredSchemaVersion = 0 →
      fetchSchemaVersion db = .ok (some v) →
      cfg₀.Migrations = some fsys →
      listMigrationFiles fsys = .ok scripts →
      Status exec cfg₀ fs db ts =
        .ok ⟨v, fetchAppliedMigrations db,
          (scripts.filter fun s =>
            s.Path ∉ (fetchAppliedMigrations db).map (·.Path)).map (·.Path),
          true⟩) ∧
    (cfg₀.isMemory = false → validatePersistentPath fs cfg₀.Path = none →
      fileExists fs cfg₀.Path = true → cfg₀.RequiredSchemaVersion = 0 →
      fetchSchemaVersion db = .ok none →
      Status exec cfg₀ fs db ts = .ok ⟨0, [], [], false⟩) := by
  have hStatus : Status exec cfg₀ fs db ts =
      (if Config.isMemory { cfg₀.defaults with SkipMigrations := true } then
        .error .memoryNotAllowed
      else if !fileExists fs cfg₀.Path then .ok ⟨0, [], [], false⟩
      else
        match openPersistent exec
            { cfg₀.defaults with SkipMigrations := true } fs db ts with
        | .error e => .error e
        | .ok st =>
          match getStatus { cfg₀.defaults with SkipMigrations := true } st with
          | .error e => .error (.statusFailed e)
          | .ok s => .ok s) := rfl
  have hM : Config.isMemory { cfg₀.defaults with SkipMigrations := true }
      = cfg₀.isMemory := rfl
  have hskip : ({ cfg₀.defaults with
      SkipMigrations := true } : Config).SkipMigrations = true := rfl
  refine ⟨fun hmem => ?_, fun hmem hne => ?_,
    fun v fsys scripts hmem hval hex hreq hver hmig hlist => ?_,
    fun hmem hval hex hreq hver => ?_⟩
  · rw [hStatus, hM, hmem]
    rfl
  · rw [hStatus, hM, hmem, hne]
    rfl
  · have hval2 : validatePersistentPath fs cfg₀.defaults.Path = none := hval
    have hex2 : fileExists fs cfg₀.defaults.Path = true := hex
    have hreq2 : cfg₀.defaults.RequiredSchemaVersion = 0 := hreq
    have hmig2 : cfg₀.defaults.Migrations = some fsys := hmig
    have hms : migrateOrSkip exec
        { cfg₀.defaults with SkipMigrations := true } db ts = .ok db := by
      unfold migrateOrSkip
      rw [hskip]
      rfl
    have hop : openPersistent exec
        { cfg₀.defaults with SkipMigrations := true } fs db ts = .ok db := by
      unfold openPersistent openAndMigrate checkRequiredVersion
      simp only [hval2, hex2, hms, hreq2, hver]
      rfl
    have hgs : getStatus { cfg₀.defaults with SkipMigrations := true } db =
        .ok ⟨v, fetchAppliedMigrations db,
          (scripts.filter fun s =>
            s.Path ∉ (fetchAppliedMigrations db).map (·.Path)).map (·.Path),
          true⟩ := by
      unfold getStatus
      simp only [hver, hmig2, hlist]
    rw [hStatus, hM, hmem, hex]
    simp only [hop, hgs]
    rfl
  · have hval2 : validatePersistentPath fs cfg₀.defaults.Path = none := hval
    have hex2 : fileExists fs cfg₀.defaults.Path = true := hex
    have hreq2 : cfg₀.defaults.RequiredSchemaVersion = 0 := hreq
    have hms : migrateOrSkip exec
        { cfg₀.defaults with SkipMigrations := true } db ts = .ok db := by
      unfold migrateOrSkip
      rw [hskip]
      rfl
    have hop : openPersistent exec
        { cfg₀.defaults with SkipMigrations := true } fs db ts = .ok db := by
      unfold openPersistent openAndMigrate checkRequiredVersion
      simp only [hval2, hex2, hms, hreq2, hver]
      rfl
    have hgs : getStatus { cfg₀.defaults with SkipMigrations := true } db =
        .ok ⟨0, [], [], false⟩ := by
      unfold getStatus
      simp only [hver]
    rw [hStatus, hM, hmem, hex]
    simp only [hop, hgs]
    rfl

/-- C9 witness: status of a memory target errors; of a never-created path
is "not initialized"; of a freshly initialized file with two discovered
scripts and none applied beyond init reports version 0, the init record,
and both scripts pending. -/
theorem Status_snapshot_witness :
    (Status (fun _ (u : Unit) => .ok u)
        ⟨":memory:", none, "ENV", false, false, "", 0⟩ [] (emptyDB ()) 0 =
      .error .memoryNotAllowed) ∧
    (Status (fun _ (u : Unit) => .ok u)
        ⟨"/tmp/none.db", none, "ENV", false, false, "", 0⟩ [⟨"/tmp", true⟩]
        (emptyDB ()) 0 = .ok ⟨0, [], [], false⟩) ∧
    (Status (fun _ (u : Unit) => .ok u)
        ⟨"/tmp/test.db",
          some [⟨"20260101000001_a.sql", false, "x"⟩,
            ⟨"20260101000002_b.sql", false, "y"⟩],
          "ENV", false, false, "", 0⟩
        [⟨"/tmp", true⟩, ⟨"/tmp/test.db", false⟩]
        ⟨true,
          [⟨"schema.version", "0", 0, 0⟩, ⟨"app.version", "", 0, 0⟩,
            ⟨"db.created_at", "", 0, 0⟩],
          [⟨0, "init", "schema.sql", 1, 1, 1⟩], ()⟩ 0 =
      .ok ⟨0, [⟨0, "init", "schema.sql", 1⟩],
        ["20260101000001_a.sql", "20260101000002_b.sql"], true⟩) :=
  ⟨(Status_snapshot (fun _ (u : Unit) => .ok u)
      ⟨":memory:", none, "ENV", false, false, "", 0⟩ [] (emptyDB ()) 0).1 rfl,
   (Status_snapshot (fun _ (u : Unit) => .ok u)
      ⟨"/tmp/none.db", none, "ENV", false, false, "", 0⟩ [⟨"/tmp", true⟩]
      (emptyDB ()) 0).2.1 rfl (by decide),
   ((Status_snapshot (fun _ (u : Unit) => .ok u)
      ⟨"/tmp/test.db",
        some [⟨"20260101000001_a.sql", false, "x"⟩,
          ⟨"20260101000002_b.sql", false, "y"⟩],
        "ENV", false, false, "", 0⟩
      [⟨"/tmp", true⟩, ⟨"/tmp/test.db", false⟩]
      ⟨true,
        [⟨"schema.version", "0", 0, 0⟩, ⟨"app.version", "", 0, 0⟩,
          ⟨"db.created_at", "", 0, 0⟩],
        [⟨0, "init", "schema.sql", 1, 1, 1⟩], ()⟩ 0).2.2.1 0
      [⟨"20260101000001_a.sql", false, "x"⟩, ⟨"20260101000002_b.sql", false, "y"⟩]
      [⟨20260101000001, "a", "20260101000001_a.sql"⟩,
        ⟨20260101000002, "b", "20260101000002_b.sql"⟩]
      rfl (by decide) (by decide) rfl (by decide) rfl (by decide)).trans
    (by decide)⟩

/-- C4: whenever two matching filenames parse to the same integer id (the
matched list is not pairwise id-distinct), discovery fails with a
duplicate-id error whose two names are both matched filenames carrying
that id — and, the result being an `Except.error`, no script list at all
is returned. -/
theorem listMigrationFiles_duplicate_id (fsys : List fileEntry)
    (hdup : ¬(matchedScripts fsys).Pairwise fun a b => a.ID ≠ b.ID) :
    ∃ (i : Nat) (n1 n2 : String),
      listMigrationFiles fsys = .error (.duplicateID i n1 n2) ∧
      (∃ s1 ∈ matchedScripts fsys, s1.ID = i ∧ s1.Path = n1) ∧
      (∃ s2 ∈ matchedScripts fsys, s2.ID = i ∧ s2.Path = n2) := by
  cases hc : collectScripts fsys [] [] with
  | ok l => exact absurd (collect_ok_distinct fsys [] [] l hc).2 hdup
  | error e =>
    cases e with
    | duplicateID i n1 n2 =>
      obtain ⟨h1, h2⟩ := collect_error_names fsys [] [] i n1 n2 hc
      refine ⟨i, n1, n2, ?_, ?_, h2⟩
      · unfold listMigrationFiles
        rw [hc]
      · rcases h1 with hmem | hex
        · exact absurd hmem (List.not_mem_nil _)
        · exact hex

/-- C4 witness: two filenames sharing the prefix `20260101000001`. -/
theorem listMigrationFiles_duplicate_id_witness :
    ∃ (i : Nat) (n1 n2 : String),
      listMigrationFiles [⟨"20260101000001_a.sql", false, ""⟩,
        ⟨"20260101000001_b.sql", false, ""⟩] = .error (.duplicateID i n1 n2) ∧
      (∃ s1 ∈ matchedScripts [⟨"20260101000001_a.sql", false, ""⟩,
        ⟨"20260101000001_b.sql", false, ""⟩], s1.ID = i ∧ s1.Path = n1) ∧
      (∃ s2 ∈ matchedScripts [⟨"20260101000001_a.sql", false, ""⟩,
        ⟨"20260101000001_b.sql", false, ""⟩], s2.ID = i ∧ s2.Path = n2) :=
  listMigrationFiles_duplicate_id _ (by decide)

/-- C3: on a collection whose matching entries have pairwise distinct
ids, discovery succeeds (sub-directories and non-matching names having
been skipped non-fatally), returns a permutation of the matched scripts —
each of which is the parse of its own filename: 14-digit prefix as id,
middle segment as comment — in strictly ascending byte-wise filename
order, which (ids being exactly 14 digits) is also strictly ascending
numeric id order. -/
theorem listMigrationFiles_sorted (fsys : List fileEntry)
    (hdistinct : (matchedScripts fsys).Pairwise fun a b => a.ID ≠ b.ID) :
    ∃ scripts, listMigrationFiles fsys = .ok scripts ∧
      scripts.Perm (matchedScripts fsys) ∧
      (∀ s ∈ scripts, parseMigrationName s.Path = some s) ∧
      scripts.Pairwise
        (fun a b => charsLt a.Path.toList b.Path.toList = true) ∧
      scripts.Pairwise (fun a b => a.ID < b.ID) := by
  have hcol := collect_ok_of_distinct fsys [] [] (fun s _ => rfl) hdistinct
  simp only [List.nil_append] at hcol
  have hlist : listMigrationFiles fsys =
      .ok ((matchedScripts fsys).insertionSort
        fun a b => charsLe a.Path.toList b.Path.toList = true) := by
    unfold listMigrationFiles
    rw [hcol]
  haveI : IsTotal migrationScript
      (fun a b => charsLe a.Path.toList b.Path.toList = true) :=
    ⟨fun a b => charsLe_total a.Path.toList b.Path.toList⟩
  haveI : IsTrans migrationScript
      (fun a b => charsLe a.Path.toList b.Path.toList = true) :=
    ⟨fun _ _ _ h1 h2 => charsLe_trans h1 h2⟩
  have hperm : ((matchedScripts fsys).insertionSort
      fun a b => charsLe a.Path.toList b.Path.toList = true).Perm
      (matchedScripts fsys) :=
    List.perm_insertionSort _ _
  have hsorted := List.sorted_insertionSort
    (fun a b : migrationScript => charsLe a.Path.toList b.Path.toList = true)
    (matchedScripts fsys)
  have hparse : ∀ s ∈ (matchedScripts fsys).insertionSort
      (fun a b => charsLe a.Path.toList b.Path.toList = true),
      parseMigrationName s.Path = some s :=
    fun s hs => matched_mem_parse (hperm.mem_iff.mp hs)
  have hids : ((matchedScripts fsys).insertionSort
      (fun a b => charsLe a.Path.toList b.Path.toList = true)).Pairwise
      (fun a b => a.ID ≠ b.ID) :=
    (List.Perm.pairwise_iff (fun h => h.symm) hperm).mpr hdistinct
  have hlt : ((matchedScripts fsys).insertionSort
      (fun a b => charsLe a.Path.toList b.Path.toList = true)).Pairwise
      (fun a b => charsLt a.Path.toList b.Path.toList = true) := by
    refine (hsorted.and hids).imp_of_mem ?_
    intro a b ha hb hab
    cases hcl : charsLt a.Path.toList b.Path.toList with
    | true => rfl
    | false =>
      exfalso
      have hle : charsLt b.Path.toList a.Path.toList = false := by
        have := hab.1
        unfold charsLe at this
        cases hx : charsLt b.Path.toList a.Path.toList with
        | false => rfl
        | true => rw [hx] at this; cases this
      have heq := charsLt_connex _ _ hcl hle
      have hpatheq : a.Path = b.Path := String.toList_inj.mp heq
      have : some a = some b := by
        rw [← hparse a ha, ← hparse b hb, hpatheq]
      cases this
      exact hab.2 rfl
  have hidlt : ((matchedScripts fsys).insertionSort
      (fun a b => charsLe a.Path.toList b.Path.toList = true)).Pairwise
      (fun a b => a.ID < b.ID) := by
    refine (hlt.and hids).imp_of_mem ?_
    intro a b ha hb hab
    obtain ⟨hpa1, hpa2, hpa3, hpa4⟩ := parse_spec (hparse a ha)
    obtain ⟨hpb1, hpb2, hpb3, hpb4⟩ := parse_spec (hparse b hb)
    have hda : (a.Path.toList.take 14).length = 14 := by
      rw [List.length_take]
      omega
    have hdb : (b.Path.toList.take 14).length = 14 := by
      rw [List.length_take]
      omega
    have hsplit_a := List.take_append_drop 14 a.Path.toList
    have hsplit_b := List.take_append_drop 14 b.Path.toList
    have hclt : charsLt (a.Path.toList.take 14 ++ a.Path.toList.drop 14)
        (b.Path.toList.take 14 ++ b.Path.toList.drop 14) = true := by
      rw [hsplit_a, hsplit_b]
      exact hab.1
    have hne_d : a.Path.toList.take 14 ≠ b.Path.toList.take 14 := by
      intro hc
      exact hab.2 (by rw [hpa2, hpb2, hc])
    have := digit_lex_lt (a.Path.toList.take 14) (b.Path.toList.take 14)
      (a.Path.toList.drop 14) (b.Path.toList.drop 14)
      (by rw [hda, hdb]) hpa3 hpb3 hclt hne_d
    rw [hpa2, hpb2]
    exact this
  exact ⟨_, hlist, hperm, hparse, hlt, hidlt⟩

/-- C3 witness: two valid scripts given in reverse directory order come
back sorted by filename and id, each parsed from its own name. -/
theorem listMigrationFiles_sorted_witness :
    ∃ scripts,
      listMigrationFiles [⟨"20260101000002_create_posts.sql", false, ""⟩,
        ⟨"sub", true, ""⟩, ⟨"readme.txt", false, ""⟩,
        ⟨"20260101000001_create_users.sql", false, ""⟩] = .ok scripts ∧
      scripts.Perm (matchedScripts
        [⟨"20260101000002_create_posts.sql", false, ""⟩, ⟨"sub", true, ""⟩,
          ⟨"readme.txt", false, ""⟩,
          ⟨"20260101000001_create_users.sql", false, ""⟩]) ∧
      (∀ s ∈ scripts, parseMigrationName s.Path = some s) ∧
      scripts.Pairwise
        (fun a b => charsLt a.Path.toList b.Path.toList = true) ∧
      scripts.Pairwise (fun a b => a.ID < b.ID) :=
  listMigrationFiles_sorted _ (by decide)

end Sqliteinit
